import Mathlib

/-!
Verification development for the threeML analysis-results subsystem, a shallow
embedding of `threeML/analysis_results.py` and `threeML/io/fits_file.py`.

Python strings are modelled as `List Char`, floating point values as `ℚ`
(so "equal within floating tolerance" becomes exact equality), numpy matrices
as `List (List ℚ)`, and Python exceptions (`assert`, `KeyError`, raised
errors) as `Except String`.  External collaborators (astromodels model
(de)serialization, numpy's random sampler and the astropy FITS container) are
modelled as explicit function parameters or plain record types, following the
spec's list of excluded collaborators.
-/

namespace ThreeML

/-- Decidable equality for `Except`, used to evaluate concrete runs of the
embedded functions. -/
def decEqExcept {ε α : Type} [DecidableEq ε] [DecidableEq α] : DecidableEq (Except ε α) :=
  fun a b =>
    match a, b with
    | .ok x, .ok y =>
      if h : x = y then isTrue (by rw [h]) else isFalse (by intro hc; cases hc; exact h rfl)
    | .error x, .error y =>
      if h : x = y then isTrue (by rw [h]) else isFalse (by intro hc; cases hc; exact h rfl)
    | .ok _, .error _ => isFalse (by intro hc; cases hc)
    | .error _, .ok _ => isFalse (by intro hc; cases hc)

instance {ε α : Type} [DecidableEq ε] [DecidableEq α] : DecidableEq (Except ε α) :=
  decEqExcept

/-! ### The escaping codec (`_escape_yaml_for_fits` / `_escape_back_yaml_from_fits`)

Python's `str.replace(pat, rep)` replaces non-overlapping occurrences greedily
from the left.  `replaceAux` is the fuel-indexed structural version (the fuel
bounds the number of scanning steps by the string length), and `replaceL` is
the actual operation. -/

/-- One left-to-right scan of `str.replace`: if `pat` matches at the head,
emit `rep` and continue after the match, otherwise keep one character. -/
def replaceAux (pat rep : List Char) : Nat → List Char → List Char
  | _, [] => []
  | 0, s => s
  | fuel+1, c :: t =>
    if pat ≠ [] ∧ pat.isPrefixOf (c :: t) = true then
      rep ++ replaceAux pat rep fuel ((c :: t).drop pat.length)
    else
      c :: replaceAux pat rep fuel t

/-- Python `text.replace(pat, rep)` on character lists (for nonempty `pat`). -/
def replaceL (pat rep s : List Char) : List Char :=
  replaceAux pat rep s.length s

theorem replaceAux_fuel (pat rep : List Char) (f₁ : Nat) :
    ∀ (f₂ : Nat) (s : List Char), s.length ≤ f₁ → s.length ≤ f₂ →
      replaceAux pat rep f₁ s = replaceAux pat rep f₂ s := by
  induction f₁ with
  | zero =>
    intro f₂ s h₁ _
    have hs : s = [] := List.eq_nil_of_length_eq_zero (Nat.le_zero.mp h₁)
    subst hs
    cases f₂ <;> rfl
  | succ f ih =>
    intro f₂ s h₁ h₂
    cases s with
    | nil => cases f₂ <;> rfl
    | cons c t =>
      cases f₂ with
      | zero => simp at h₂
      | succ f₂' =>
        simp only [replaceAux]
        by_cases hp : pat ≠ [] ∧ pat.isPrefixOf (c :: t) = true
        · rw [if_pos hp, if_pos hp]
          have hpat : 1 ≤ pat.length := by
            cases pat with
            | nil => exact absurd rfl hp.1
            | cons a l => simp
          have hd : ((c :: t).drop pat.length).length = (c :: t).length - pat.length :=
            List.length_drop _ _
          congr 1
          apply ih
          · rw [hd]; simp only [List.length_cons] at *; omega
          · rw [hd]; simp only [List.length_cons] at *; omega
        · rw [if_neg hp, if_neg hp]
          congr 1
          apply ih
          · simp only [List.length_cons] at h₁; omega
          · simp only [List.length_cons] at h₂; omega

theorem replaceL_nil (pat rep : List Char) : replaceL pat rep [] = [] := rfl

theorem replaceL_pos (pat rep s : List Char) (hne : pat ≠ [])
    (hp : pat.isPrefixOf s = true) :
    replaceL pat rep s = rep ++ replaceL pat rep (s.drop pat.length) := by
  cases s with
  | nil =>
    cases pat with
    | nil => exact absurd rfl hne
    | cons a l => simp [List.isPrefixOf] at hp
  | cons c t =>
    show replaceAux pat rep (t.length + 1) (c :: t) = _
    simp only [replaceAux]
    rw [if_pos ⟨hne, hp⟩]
    congr 1
    have hpat : 1 ≤ pat.length := by
      cases pat with
      | nil => exact absurd rfl hne
      | cons a l => simp
    apply replaceAux_fuel
    · rw [List.length_drop]; simp only [List.length_cons]; omega
    · exact Nat.le_refl _

theorem replaceL_neg (pat rep : List Char) (c : Char) (t : List Char)
    (h : ¬ pat.isPrefixOf (c :: t) = true) :
    replaceL pat rep (c :: t) = c :: replaceL pat rep t := by
  show replaceAux pat rep (t.length + 1) (c :: t) = _
  simp only [replaceAux]
  rw [if_neg (by intro hc; exact h hc.2)]
  rfl

/-- Bridge between the boolean `List.isPrefixOf` and the `<+:` relation. -/
theorem isPrefixOf_iff (l₁ l₂ : List Char) : l₁.isPrefixOf l₂ = true ↔ l₁ <+: l₂ := by
  induction l₁ generalizing l₂ with
  | nil => simp [List.isPrefixOf]
  | cons a l ih =>
    cases l₂ with
    | nil => simp [List.isPrefixOf]
    | cons b l₂' =>
      simp [List.isPrefixOf, List.cons_prefix_cons, ih, Bool.and_eq_true, beq_iff_eq]

/-- Newline character. -/
def cNL : Char := Char.ofNat 10
/-- Single-quote character. -/
def cQ1 : Char := Char.ofNat 39
/-- Double-quote character. -/
def cQ2 : Char := Char.ofNat 34
/-- Open-brace character. -/
def cBO : Char := Char.ofNat 123
/-- Close-brace character. -/
def cBC : Char := Char.ofNat 125

/-- The `_subs` table of `analysis_results.py`: special characters that cannot
be stored in a FITS keyword, paired with their placeholder tokens. -/
def subsL : List (Char × List Char) :=
  [(cNL, "_NEWLINE_".data), (cQ1, "_QUOTE1_".data), (cQ2, "_QUOTE2_".data),
   (cBO, "_PARO_".data), (cBC, "_PARC_".data)]

/-- `_escape_yaml_for_fits`: apply each substitution (character to token) in
table order. -/
def _escape_yaml_for_fits (yaml_code : List Char) : List Char :=
  subsL.foldl (fun acc p => replaceL [p.1] p.2 acc) yaml_code

/-- `_escape_back_yaml_from_fits`: apply each substitution in reverse direction
(token to character), iterating the table in the same order as the escape. -/
def _escape_back_yaml_from_fits (yaml_code : List Char) : List Char :=
  subsL.foldl (fun acc p => replaceL p.2 [p.1] acc) yaml_code

/-- Variant written from the specification text, which says the unescape
"applies the same substitutions in reverse order": iterate the table
reversed.  Used only to compare with the source's order. -/
def unescapeRevOrder (yaml_code : List Char) : List Char :=
  subsL.reverse.foldl (fun acc p => replaceL p.2 [p.1] acc) yaml_code

/-- Substring test: `hasSub pat s` holds iff `pat` occurs contiguously in `s`. -/
def hasSub (pat : List Char) : List Char → Bool
  | [] => pat.isPrefixOf []
  | c :: t => pat.isPrefixOf (c :: t) || hasSub pat t

/-- The placeholder-token cores (tokens without their underscore delimiters). -/
def coresL : List (List Char) :=
  ["NEWLINE".data, "QUOTE1".data, "QUOTE2".data, "PARO".data, "PARC".data]

/-- A string is core-free when none of the five token cores occurs in it. -/
def coreFree (s : List Char) : Bool := coresL.all (fun c => !(hasSub c s))

theorem hasSub_of_isPrefixOf (pat s : List Char) (h : pat.isPrefixOf s = true) :
    hasSub pat s = true := by
  cases s with
  | nil => simpa [hasSub] using h
  | cons c t => simp [hasSub, h]

theorem hasSub_tail_false (pat : List Char) (c : Char) (t : List Char)
    (h : hasSub pat (c :: t) = false) : hasSub pat t = false := by
  simp only [hasSub, Bool.or_eq_false_iff] at h
  exact h.2

/-! Prefix algebra over concatenations, used to analyse where a token match can
start inside the expansion of an escaped string. -/

theorem pref_append_of_le (T X Y : List Char) (h : T <+: X ++ Y)
    (hlen : T.length ≤ X.length) : T <+: X := by
  obtain ⟨r, hr⟩ := h
  have hT : (X ++ Y).take T.length = T := by
    rw [← hr]
    exact List.take_left' rfl
  rw [List.take_append_of_le_length hlen] at hT
  rw [← hT]
  exact List.take_prefix _ _

theorem pref_rev_of_le (T X Y : List Char) (h : T <+: X ++ Y)
    (hlen : X.length ≤ T.length) : X <+: T := by
  obtain ⟨r, hr⟩ := h
  have hX : (T ++ r).take X.length = X := by
    rw [hr]
    exact List.take_left' rfl
  rw [List.take_append_of_le_length hlen] at hX
  rw [← hX]
  exact List.take_prefix _ _

theorem pref_drop_of_pref (T X Y : List Char) (h : T <+: X ++ Y)
    (hX : X <+: T) : T.drop X.length <+: Y := by
  obtain ⟨r, hr⟩ := h
  obtain ⟨w, hw⟩ := hX
  have hT : T.drop X.length = w := by rw [← hw, List.drop_left]
  rw [hT]
  rw [← hw] at hr
  rw [List.append_assoc] at hr
  have := List.append_cancel_left hr.symm
  exact ⟨r, this.symm⟩

/-- Pointwise action of a single-character substitution. -/
def subChar (c : Char) (rep : List Char) (a : Char) : List Char :=
  if a = c then rep else [a]

theorem replaceL_single (c : Char) (rep s : List Char) :
    replaceL [c] rep s = s.flatMap (subChar c rep) := by
  induction s with
  | nil => rfl
  | cons a t ih =>
    by_cases h : a = c
    · subst h
      rw [replaceL_pos [a] rep (a :: t) (by simp) (by simp [List.isPrefixOf])]
      simp [subChar, ih]
    · rw [replaceL_neg [c] rep a t
        (by simp [List.isPrefixOf, Bool.and_eq_true, beq_iff_eq]; intro hc; exact absurd hc.symm h)]
      simp [subChar, h, ih]

/-- Remaining-substitutions encoding: the expansion a character has after the
substitutions in `l` have been applied (identity if it is not a key of `l`). -/
def encFrom (l : List (Char × List Char)) (a : Char) : List Char :=
  match l.find? (fun p => p.1 == a) with
  | some p => p.2
  | none => [a]

/-- The per-character encoding once the first `i` unescape substitutions have
been undone (stage 0 is the full escape encoding, stage 5 the identity). -/
def encStage (i : Nat) : Char → List Char := encFrom (subsL.drop i)

theorem encFrom_of_not_key (l : List (Char × List Char)) (a : Char)
    (h : ∀ p ∈ l, p.1 ≠ a) : encFrom l a = [a] := by
  have : l.find? (fun p => p.1 == a) = none := by
    apply List.find?_eq_none.mpr
    intro p hp
    simp [beq_iff_eq]
    exact h p hp
  simp [encFrom, this]

theorem encStage_other (i : Nat) (a : Char) (h1 : a ≠ cNL) (h2 : a ≠ cQ1)
    (h3 : a ≠ cQ2) (h4 : a ≠ cBO) (h5 : a ≠ cBC) : encStage i a = [a] := by
  apply encFrom_of_not_key
  intro p hp
  have hp' : p ∈ subsL := (List.drop_sublist i subsL).subset hp
  simp only [subsL, List.mem_cons, List.mem_singleton] at hp'
  rcases hp' with rfl | rfl | rfl | rfl | rfl | h
  · exact fun e => h1 e.symm
  · exact fun e => h2 e.symm
  · exact fun e => h3 e.symm
  · exact fun e => h4 e.symm
  · exact fun e => h5 e.symm
  · simp at h

theorem encStage_five (a : Char) : encStage 5 a = [a] := by
  apply encFrom_of_not_key
  intro p hp
  simp [subsL] at hp

/-- Greedy replacement skips over a region in which no match starts. -/
theorem replaceL_skip (pat rep B rest : List Char)
    (h : ∀ k, k < B.length → ¬ pat.isPrefixOf ((B ++ rest).drop k) = true) :
    replaceL pat rep (B ++ rest) = B ++ replaceL pat rep rest := by
  induction B with
  | nil => simp
  | cons b B' ih =>
    have h0 := h 0 (by simp)
    simp only [List.drop_zero] at h0
    rw [List.cons_append]
    rw [List.cons_append] at h0
    rw [replaceL_neg pat rep b (B' ++ rest) h0]
    rw [ih (fun k hk => by
      have := h (k+1) (by simp only [List.length_cons]; omega)
      simpa [List.cons_append] using this)]
    rfl

/-- A prefix made of non-underscore characters of the expansion of `t` must be
a prefix of `t` itself: every multi-character block in the expansion starts
with an underscore. -/
theorem pref_through_flatMap (F : Char → List Char)
    (hHeads : ∀ c, F c = [c] ∨ ∃ B, F c = '_' :: B)
    (w : List Char) (hw : ∀ a ∈ w, a ≠ '_') :
    ∀ t, w <+: t.flatMap F → w <+: t := by
  induction w with
  | nil => intro t _; exact List.nil_prefix
  | cons a w' ih =>
    intro t hpre
    cases t with
    | nil => simp at hpre
    | cons c t' =>
      rw [List.flatMap_cons] at hpre
      rcases hHeads c with hc | ⟨B, hc⟩
      · rw [hc, List.singleton_append] at hpre
        obtain ⟨hac, h2⟩ := List.cons_prefix_cons.mp hpre
        subst hac
        exact List.cons_prefix_cons.mpr
          ⟨rfl, ih (fun x hx => hw x (by simp [hx])) t' h2⟩
      · rw [hc, List.cons_append] at hpre
        obtain ⟨hac, _⟩ := List.cons_prefix_cons.mp hpre
        exact absurd hac (hw a (by simp))

/-- Conditions on a block `B` (the expansion of some other special character)
ensuring a scan for token `T` cannot start strictly inside `B`: no full match
of `T` fits inside `B`, and the only suffix of `B` that could begin a match is
its final underscore. -/
def BlockFits (T B : List Char) : Prop :=
  (∀ k, k < B.length → T.length ≤ B.length - k → ¬ T.isPrefixOf (B.drop k) = true) ∧
  (∀ k, k < B.length → (B.drop k).isPrefixOf T = true → B.drop k = ['_'])

instance (T B : List Char) : Decidable (BlockFits T B) := by
  unfold BlockFits
  infer_instance

/-- One unescape pass: replacing token `T` by its character `ci` in the
expansion of a core-free string `s` exactly undoes the blocks that `F`
produced for `ci`, turning the stage encoding `F` into `F'`. -/
theorem replace_stage (T core : List Char) (ci : Char) (F F' : Char → List Char)
    (hT : T = '_' :: core ++ ['_'])
    (hcore_us : ∀ a ∈ core, a ≠ '_')
    (hFci : F ci = T)
    (hF' : ∀ c, F' c = if c = ci then [ci] else F c)
    (hHeads : ∀ c, F c = [c] ∨ ∃ B, F c = '_' :: B)
    (hBlocks : ∀ c, c ≠ ci → F c = [c] ∨ BlockFits T (F c)) :
    ∀ s, hasSub core s = false → replaceL T [ci] (s.flatMap F) = s.flatMap F' := by
  have hTne : T ≠ [] := by rw [hT]; simp
  intro s
  induction s with
  | nil => intro _; rfl
  | cons c t ih =>
    intro hcf
    have hcf' : hasSub core t = false := hasSub_tail_false core c t hcf
    -- any match of the core at the start of the expansion of `t` contradicts
    -- core-freeness of `c :: t`
    have hnocore : ¬ core <+: t.flatMap F := by
      intro hcp
      have hct : core <+: t := pref_through_flatMap F hHeads core hcore_us t hcp
      have : hasSub core t = true :=
        hasSub_of_isPrefixOf core t ((isPrefixOf_iff core t).mpr hct)
      simp [this] at hcf'
    rw [List.flatMap_cons, List.flatMap_cons]
    by_cases hc : c = ci
    · subst hc
      rw [hFci]
      have hpre : T.isPrefixOf (T ++ t.flatMap F) = true :=
        (isPrefixOf_iff _ _).mpr (List.prefix_append T _)
      rw [replaceL_pos T [c] _ hTne hpre, List.drop_left, ih hcf', hF' c, if_pos rfl]
    · rcases hBlocks c hc with hB | hBf
      · -- singleton block: no match can start here unless the core follows
        rw [hB, List.singleton_append]
        have hnomatch : ¬ T.isPrefixOf (c :: t.flatMap F) = true := by
          intro hm
          rw [isPrefixOf_iff] at hm
          rw [hT, List.cons_append] at hm
          obtain ⟨_, h2⟩ := List.cons_prefix_cons.mp hm
          exact hnocore ((List.prefix_append core ['_']).trans h2)
        rw [replaceL_neg T [ci] c _ hnomatch, ih hcf', hF' c, if_neg hc, hB,
          List.singleton_append]
      · -- token block of another special character: no match starts inside it
        have hskip : ∀ k, k < (F c).length →
            ¬ T.isPrefixOf ((F c ++ t.flatMap F).drop k) = true := by
          intro k hk hm
          rw [List.drop_append_of_le_length (Nat.le_of_lt hk)] at hm
          rw [isPrefixOf_iff] at hm
          by_cases hlen : T.length ≤ (F c).length - k
          · have hdk : T.length ≤ ((F c).drop k).length := by
              rw [List.length_drop]; exact hlen
            have hin : T <+: (F c).drop k := pref_append_of_le T _ _ hm hdk
            exact hBf.1 k hk hlen ((isPrefixOf_iff _ _).mpr hin)
          · have hdk : ((F c).drop k).length ≤ T.length := by
              rw [List.length_drop]; omega
            have hrev : (F c).drop k <+: T := pref_rev_of_le T _ _ hm hdk
            have hone : (F c).drop k = ['_'] :=
              hBf.2 k hk ((isPrefixOf_iff _ _).mpr hrev)
            have hrest : T.drop ((F c).drop k).length <+: t.flatMap F :=
              pref_drop_of_pref T _ _ hm hrev
            rw [hone] at hrest
            simp only [List.length_singleton] at hrest
            rw [hT] at hrest
            simp only [List.cons_append, List.drop_succ_cons, List.drop_zero] at hrest
            exact hnocore ((List.prefix_append core ['_']).trans hrest)
        rw [replaceL_skip T [ci] (F c) _ hskip, ih hcf', hF' c, if_neg hc]

theorem encFrom_heads (l : List (Char × List Char))
    (hl : ∀ p ∈ l, ∃ B, p.2 = '_' :: B) (c : Char) :
    encFrom l c = [c] ∨ ∃ B, encFrom l c = '_' :: B := by
  unfold encFrom
  cases hfind : l.find? (fun p => p.1 == c) with
  | none => left; rfl
  | some p => right; exact hl p (List.mem_of_find?_eq_some hfind)

theorem subsL_vals : ∀ p ∈ subsL, ∃ B, p.2 = '_' :: B := by
  intro p hp
  simp only [subsL, List.mem_cons, List.not_mem_nil] at hp
  rcases hp with rfl | rfl | rfl | rfl | rfl | h
  · exact ⟨"NEWLINE_".data, by decide⟩
  · exact ⟨"QUOTE1_".data, by decide⟩
  · exact ⟨"QUOTE2_".data, by decide⟩
  · exact ⟨"PARO_".data, by decide⟩
  · exact ⟨"PARC_".data, by decide⟩
  · exact absurd h (by simp)

theorem encStage_heads (i : Nat) :
    ∀ c, encStage i c = [c] ∨ ∃ B, encStage i c = '_' :: B := by
  intro c
  unfold encStage
  exact encFrom_heads _ (fun p hp => subsL_vals p ((List.drop_sublist i subsL).subset hp)) c

theorem encStage_step1 : ∀ c, encStage 1 c = if c = cNL then [cNL] else encStage 0 c := by
  intro c
  by_cases h : c = cNL
  · subst h; rw [if_pos rfl]; decide
  · rw [if_neg h]
    have hbeq : (cNL == c) = false := beq_eq_false_iff_ne.mpr (fun e => h e.symm)
    simp [encStage, encFrom, subsL, List.find?, hbeq]

theorem encStage_step2 : ∀ c, encStage 2 c = if c = cQ1 then [cQ1] else encStage 1 c := by
  intro c
  by_cases h : c = cQ1
  · subst h; rw [if_pos rfl]; decide
  · rw [if_neg h]
    have hbeq : (cQ1 == c) = false := beq_eq_false_iff_ne.mpr (fun e => h e.symm)
    simp [encStage, encFrom, subsL, List.find?, hbeq]

theorem encStage_step3 : ∀ c, encStage 3 c = if c = cQ2 then [cQ2] else encStage 2 c := by
  intro c
  by_cases h : c = cQ2
  · subst h; rw [if_pos rfl]; decide
  · rw [if_neg h]
    have hbeq : (cQ2 == c) = false := beq_eq_false_iff_ne.mpr (fun e => h e.symm)
    simp [encStage, encFrom, subsL, List.find?, hbeq]

theorem encStage_step4 : ∀ c, encStage 4 c = if c = cBO then [cBO] else encStage 3 c := by
  intro c
  by_cases h : c = cBO
  · subst h; rw [if_pos rfl]; decide
  · rw [if_neg h]
    have hbeq : (cBO == c) = false := beq_eq_false_iff_ne.mpr (fun e => h e.symm)
    simp [encStage, encFrom, subsL, List.find?, hbeq]

theorem encStage_step5 : ∀ c, encStage 5 c = if c = cBC then [cBC] else encStage 4 c := by
  intro c
  by_cases h : c = cBC
  · subst h; rw [if_pos rfl]; decide
  · rw [if_neg h]
    have hbeq : (cBC == c) = false := beq_eq_false_iff_ne.mpr (fun e => h e.symm)
    simp [encStage, encFrom, subsL, List.find?, hbeq]

theorem encStage_blocks0 :
    ∀ c, c ≠ cNL → encStage 0 c = [c] ∨ BlockFits ("_NEWLINE_".data) (encStage 0 c) := by
  intro c h1
  by_cases h2 : c = cQ1
  · subst h2; decide
  by_cases h3 : c = cQ2
  · subst h3; decide
  by_cases h4 : c = cBO
  · subst h4; decide
  by_cases h5 : c = cBC
  · subst h5; decide
  exact Or.inl (encStage_other 0 c h1 h2 h3 h4 h5)

theorem encStage_blocks1 :
    ∀ c, c ≠ cQ1 → encStage 1 c = [c] ∨ BlockFits ("_QUOTE1_".data) (encStage 1 c) := by
  intro c h2
  by_cases h1 : c = cNL
  · subst h1; decide
  by_cases h3 : c = cQ2
  · subst h3; decide
  by_cases h4 : c = cBO
  · subst h4; decide
  by_cases h5 : c = cBC
  · subst h5; decide
  exact Or.inl (encStage_other 1 c h1 h2 h3 h4 h5)

theorem encStage_blocks2 :
    ∀ c, c ≠ cQ2 → encStage 2 c = [c] ∨ BlockFits ("_QUOTE2_".data) (encStage 2 c) := by
  intro c h3
  by_cases h1 : c = cNL
  · subst h1; decide
  by_cases h2 : c = cQ1
  · subst h2; decide
  by_cases h4 : c = cBO
  · subst h4; decide
  by_cases h5 : c = cBC
  · subst h5; decide
  exact Or.inl (encStage_other 2 c h1 h2 h3 h4 h5)

theorem encStage_blocks3 :
    ∀ c, c ≠ cBO → encStage 3 c = [c] ∨ BlockFits ("_PARO_".data) (encStage 3 c) := by
  intro c h4
  by_cases h1 : c = cNL
  · subst h1; decide
  by_cases h2 : c = cQ1
  · subst h2; decide
  by_cases h3 : c = cQ2
  · subst h3; decide
  by_cases h5 : c = cBC
  · subst h5; decide
  exact Or.inl (encStage_other 3 c h1 h2 h3 h4 h5)

theorem encStage_blocks4 :
    ∀ c, c ≠ cBC → encStage 4 c = [c] ∨ BlockFits ("_PARC_".data) (encStage 4 c) := by
  intro c h5
  by_cases h1 : c = cNL
  · subst h1; decide
  by_cases h2 : c = cQ1
  · subst h2; decide
  by_cases h3 : c = cQ2
  · subst h3; decide
  by_cases h4 : c = cBO
  · subst h4; decide
  exact Or.inl (encStage_other 4 c h1 h2 h3 h4 h5)

theorem encChain (a : Char) :
    ((((subChar cNL ("_NEWLINE_".data) a).flatMap (subChar cQ1 ("_QUOTE1_".data))).flatMap
      (subChar cQ2 ("_QUOTE2_".data))).flatMap (subChar cBO ("_PARO_".data))).flatMap
      (subChar cBC ("_PARC_".data)) = encStage 0 a := by
  by_cases h1 : a = cNL
  · subst h1; decide
  by_cases h2 : a = cQ1
  · subst h2; decide
  by_cases h3 : a = cQ2
  · subst h3; decide
  by_cases h4 : a = cBO
  · subst h4; decide
  by_cases h5 : a = cBC
  · subst h5; decide
  rw [encStage_other 0 a h1 h2 h3 h4 h5]
  simp [subChar, h1, h2, h3, h4, h5]

theorem chain_eq_encStage0 (s : List Char) :
    ((((s.flatMap (subChar cNL ("_NEWLINE_".data))).flatMap
      (subChar cQ1 ("_QUOTE1_".data))).flatMap
      (subChar cQ2 ("_QUOTE2_".data))).flatMap (subChar cBO ("_PARO_".data))).flatMap
      (subChar cBC ("_PARC_".data)) = s.flatMap (encStage 0) := by
  induction s with
  | nil => rfl
  | cons a t ih =>
    simp only [List.flatMap_cons, List.flatMap_append]
    rw [ih]
    congr 1
    exact encChain a

theorem escape_eq_flatMap (s : List Char) :
    _escape_yaml_for_fits s = s.flatMap (encStage 0) := by
  have h : _escape_yaml_for_fits s =
      ((((s.flatMap (subChar cNL ("_NEWLINE_".data))).flatMap
        (subChar cQ1 ("_QUOTE1_".data))).flatMap
        (subChar cQ2 ("_QUOTE2_".data))).flatMap (subChar cBO ("_PARO_".data))).flatMap
        (subChar cBC ("_PARC_".data)) := by
    simp only [_escape_yaml_for_fits, subsL, List.foldl_cons, List.foldl_nil]
    rw [replaceL_single, replaceL_single, replaceL_single, replaceL_single, replaceL_single]
  rw [h, chain_eq_encStage0]

/-- Round trip of the escaping codec on core-free strings: unescaping an
escaped string recovers it exactly. -/
theorem unescape_escape_of_coreFree (s : List Char) (h : coreFree s = true) :
    _escape_back_yaml_from_fits (_escape_yaml_for_fits s) = s := by
  simp only [coreFree, coresL, List.all_cons, List.all_nil, Bool.and_eq_true,
    Bool.not_eq_true'] at h
  obtain ⟨h1, h2, h3, h4, h5, -⟩ := h
  rw [escape_eq_flatMap]
  simp only [_escape_back_yaml_from_fits, subsL, List.foldl_cons, List.foldl_nil]
  rw [replace_stage ("_NEWLINE_".data) ("NEWLINE".data) cNL (encStage 0) (encStage 1)
    (by decide) (by decide) (by decide) encStage_step1 (encStage_heads 0) encStage_blocks0 s h1]
  rw [replace_stage ("_QUOTE1_".data) ("QUOTE1".data) cQ1 (encStage 1) (encStage 2)
    (by decide) (by decide) (by decide) encStage_step2 (encStage_heads 1) encStage_blocks1 s h2]
  rw [replace_stage ("_QUOTE2_".data) ("QUOTE2".data) cQ2 (encStage 2) (encStage 3)
    (by decide) (by decide) (by decide) encStage_step3 (encStage_heads 2) encStage_blocks2 s h3]
  rw [replace_stage ("_PARO_".data) ("PARO".data) cBO (encStage 3) (encStage 4)
    (by decide) (by decide) (by decide) encStage_step4 (encStage_heads 3) encStage_blocks3 s h4]
  rw [replace_stage ("_PARC_".data) ("PARC".data) cBC (encStage 4) (encStage 5)
    (by decide) (by decide) (by decide) encStage_step5 (encStage_heads 4) encStage_blocks4 s h5]
  have he : ∀ u : List Char, u.flatMap (encStage 5) = u := by
    intro u
    induction u with
    | nil => rfl
    | cons a t ih => rw [List.flatMap_cons, encStage_five a, ih]; rfl
  exact he s

/-! ### Matrices

numpy 2-d arrays become lists of rows over `ℚ`.  `cols0` is `shape[1]` of a
nonempty rectangular matrix, `transposeM` is `.T`. -/

/-- A numpy 2-d float array: list of rows. -/
abbrev Mat := List (List ℚ)

/-- Number of columns read off the first row (`shape[1]` for a nonempty
rectangular matrix). -/
def cols0 (m : Mat) : Nat :=
  match m with
  | [] => 0
  | row :: _ => row.length

/-- Column `j` of a matrix. -/
def colOf (m : Mat) (j : Nat) : List ℚ := m.map (fun row => row.getD j 0)

/-- numpy `.T` on a rectangular matrix. -/
def transposeM (m : Mat) : Mat := (List.range (cols0 m)).map (colOf m)

/-- Rectangular matrix of shape `(r, c)`. -/
def Rect (m : Mat) (r c : Nat) : Prop :=
  m.length = r ∧ ∀ row ∈ m, row.length = c

instance (m : Mat) (r c : Nat) : Decidable (Rect m r c) := by
  unfold Rect
  infer_instance

theorem range_map_getD (l : List ℚ) :
    (List.range l.length).map (fun j => l.getD j 0) = l := by
  induction l with
  | nil => rfl
  | cons a t ih =>
    rw [List.length_cons, List.range_succ_eq_map, List.map_cons, List.map_map]
    simp only [List.getD_cons_zero, Function.comp_def, List.getD_cons_succ]
    rw [ih]

theorem getD_map_lt {α β : Type} (l : List α) (f : α → β) (i : Nat)
    (h : i < l.length) (d : β) : (l.map f).getD i d = f l[i] := by
  rw [List.getD_eq_getElem _ _ (by simpa using h)]
  simp

theorem length_transposeM (m : Mat) : (transposeM m).length = cols0 m := by
  simp [transposeM]

theorem cols0_of_rect (m : Mat) (r c : Nat) (hm : Rect m r c) (hr : 1 ≤ r) :
    cols0 m = c := by
  obtain ⟨hlen, hrow⟩ := hm
  cases m with
  | nil => simp at hlen; omega
  | cons row t => exact hrow row (by simp)

theorem transposeM_rect (m : Mat) (r c : Nat) (hm : Rect m r c) (hr : 1 ≤ r) :
    Rect (transposeM m) c r := by
  constructor
  · rw [length_transposeM, cols0_of_rect m r c hm hr]
  · intro row hrow
    simp only [transposeM, List.mem_map] at hrow
    obtain ⟨j, _, rfl⟩ := hrow
    simp [colOf, hm.1]

/-- Transposition is an involution on nonempty rectangular matrices. -/
theorem transposeM_transposeM (m : Mat) (r c : Nat) (hm : Rect m r c)
    (hr : 1 ≤ r) (hc : 1 ≤ c) : transposeM (transposeM m) = m := by
  have hc0 : cols0 m = c := cols0_of_rect m r c hm hr
  have hT : Rect (transposeM m) c r := transposeM_rect m r c hm hr
  have hc0T : cols0 (transposeM m) = r := cols0_of_rect _ c r hT hc
  apply List.ext_getElem
  · simp [length_transposeM, hc0T, hm.1]
  · intro i h1 h2
    have hilen : i < m.length := h2
    have hstep : (transposeM (transposeM m))[i] = colOf (transposeM m) i := by
      simp [transposeM]
    rw [hstep]
    show (transposeM m).map (fun row => row.getD i 0) = m[i]
    rw [transposeM, List.map_map]
    have hrowlen : m[i].length = c := hm.2 _ (List.getElem_mem _)
    have hpt : ∀ j ∈ List.range (cols0 m),
        ((fun row => row.getD i 0) ∘ colOf m) j = m[i].getD j 0 := by
      intro j _
      simp only [Function.comp_def, colOf]
      exact getD_map_lt m (fun row => row.getD j 0) i hilen 0
    rw [List.map_congr_left hpt, hc0, ← hrowlen]
    exact range_map_getD _

/-! ### The result data model (`_AnalysisResults`, `MLEResults`, `BayesianResults`)

The astromodels `Model` is an external collaborator: an ordered mapping of
free-parameter path to parameter (value, unit, optional bounds). -/

/-- A free parameter of the model: path, best-fit value, optional bounds, unit. -/
structure Param where
  name : String
  value : ℚ
  min_value : Option ℚ
  max_value : Option ℚ
  unit : String
deriving DecidableEq

/-- The external astromodels model, reduced to its ordered free-parameter map. -/
structure Model where
  free_parameters : List Param
deriving DecidableEq

/-- Best-fit values of the free parameters, in enumeration order. -/
def Model.values (m : Model) : List ℚ := m.free_parameters.map (fun p => p.value)

/-- `astromodels.clone_model`: a defensive deep copy; the identity on pure data. -/
def clone_model (m : Model) : Model := m

/-- Per-dataset statistic values, an ordered name-to-value mapping. -/
abbrev Stats := List (String × ℚ)

/-- The `_AnalysisResults` record: snapshot model, transposed sample matrix,
statistic values, analysis-type tag, and (for MLE results only) the stored
covariance matrix. -/
structure AnalysisResults where
  n_free_parameters : Nat
  optimized_model : Model
  samples_transposed : Mat
  optimal_statistic_values : Stats
  analysis_type : String
  covariance_matrix : Option Mat
deriving DecidableEq

/-- `_AnalysisResults.__init__`: checks `samples.shape[1]` against the number
of free parameters (samples arrays are rectangular, so the numpy shape test is
the row-length test), clones the model, and stores the transposed samples. -/
def _AnalysisResults.init (optimized_model : Model) (samples : Mat)
    (statistic_values : Stats) (analysis_type : String) :
    Except String AnalysisResults :=
  if samples.all (fun row => row.length = optimized_model.free_parameters.length) then
    .ok { n_free_parameters := optimized_model.free_parameters.length
          optimized_model := clone_model optimized_model
          samples_transposed := transposeM samples
          optimal_statistic_values := statistic_values
          analysis_type := analysis_type
          covariance_matrix := none }
  else
    .error ("Number of free parameters (" ++ toString (cols0 samples)
      ++ ") and set of samples (" ++ toString optimized_model.free_parameters.length
      ++ ") do not agree.")

/-- `BayesianResults.__init__`. -/
def BayesianResults.init (optimized_model : Model) (samples : Mat)
    (posterior_values : Stats) : Except String AnalysisResults :=
  _AnalysisResults.init optimized_model samples posterior_values ("Bayesian")

/-- Covariance input of `MLEResults.__init__` after `np.array(x, float)`: a
0-d array (no covariance information) or a 2-d matrix. -/
inductive CovInput
  | scalar0d
  | mat (m : Mat)
deriving DecidableEq

/-- Bound test of the sampling loop: `np.any(sample > hi_bounds) or
np.any(sample < low_bounds)`, where a missing bound was cast to `nan` and then
replaced by an infinity that never rejects. -/
def outOfBounds (low hi : List (Option ℚ)) (sample : List ℚ) : Bool :=
  (sample.zip hi).any (fun p =>
    match p.2 with
    | some b => decide (b < p.1)
    | none => false) ||
  (sample.zip low).any (fun p =>
    match p.2 with
    | some b => decide (p.1 < b)
    | none => false)

/-- The samples surviving the bound rejection loop of `MLEResults.__init__`. -/
def keptSamples (optimized_model : Model) (samples : Mat) : Mat :=
  samples.filter (fun s =>
    !(outOfBounds (optimized_model.free_parameters.map (fun p => p.min_value))
      (optimized_model.free_parameters.map (fun p => p.max_value)) s))

/-- `n_removed`: how many samples the rejection loop dropped. -/
def removedCount (optimized_model : Model) (samples : Mat) : Nat :=
  samples.length - (keptSamples optimized_model samples).length

/-- The common tail of `MLEResults.__init__` after the samples and covariance
were determined: reject out-of-bounds samples, compute the reliability warning
(the float test `n_removed > n/100.0` is modelled exactly as
`100 * n_removed > n`; a warning carries `(n_removed, n)`, the data of the
reported percentage), build the base record and store the covariance. -/
def MLEResults.finish (optimized_model : Model) (samples : Mat)
    (covariance_matrix : Mat) (likelihood_values : Stats) :
    Except String (AnalysisResults × Option (Nat × Nat)) :=
  match _AnalysisResults.init optimized_model (keptSamples optimized_model samples)
      likelihood_values ("MLE") with
  | .ok base =>
    .ok ({ base with covariance_matrix := some covariance_matrix },
      if 100 * removedCount optimized_model samples > samples.length then
        some (removedCount optimized_model samples, samples.length)
      else none)
  | .error e => .error e

/-- `MLEResults.__init__`: validates the covariance shape, draws `n_samples`
multivariate-normal samples (the numpy sampler is an external collaborator,
passed as `mvn`), or duplicates the best-fit point when no covariance
information is available (a 0-d array) while faking a zero covariance matrix;
then proceeds with the rejection tail `MLEResults.finish`. -/
def MLEResults.init : Model → CovInput → Stats → Nat →
    (List ℚ → Mat → Nat → Mat) → Except String (AnalysisResults × Option (Nat × Nat))
  | optimized_model, .mat m, likelihood_values, n_samples, mvn =>
    if m.length = (Model.values optimized_model).length ∧
        m.all (fun row => row.length = (Model.values optimized_model).length) then
      MLEResults.finish optimized_model (mvn (Model.values optimized_model) m n_samples)
        m likelihood_values
    else
      Except.error ("Covariance matrix has wrong shape. Got (" ++ toString m.length
        ++ ", " ++ toString (cols0 m) ++ "), should be ("
        ++ toString (Model.values optimized_model).length
        ++ ", " ++ toString (Model.values optimized_model).length ++ ")")
  | optimized_model, .scalar0d, likelihood_values, n_samples, _ =>
    MLEResults.finish optimized_model
      (List.replicate n_samples (Model.values optimized_model))
      (List.replicate (Model.values optimized_model).length
        (List.replicate (Model.values optimized_model).length (0 : ℚ)))
      likelihood_values

/-- `_AnalysisResults._get_correlation_matrix`, parametric in the square-root
function (`math.sqrt` is an external real operation).  A `none` cell models
the `np.nan` the source writes when the denominator `cov[i,i]*cov[j,j]` is not
strictly positive; the function is total and never raises. -/
def _get_correlation_matrix (sqrtF : ℚ → ℚ) (n_free_parameters : Nat)
    (covariance : Mat) : List (List (Option ℚ)) :=
  (List.range n_free_parameters).map (fun i =>
    (List.range n_free_parameters).map (fun j =>
      let variance_i := (covariance.getD i []).getD i 0
      let variance_j := (covariance.getD j []).getD j 0
      if variance_i * variance_j > 0 then
        some ((covariance.getD i []).getD j 0 / sqrtF (variance_i * variance_j))
      else
        none))

/-! ### Random variates and the parameter summary table

`threeML.random_variates` is not among the sources; its interval operation is
modelled from the spec (quantile-based equal-tail interval, `ValueError`
outside `0 < cl < 1`). -/

/-- A sample vector with its designated best value. -/
structure RandomVariates where
  samples : List ℚ
  value : ℚ
deriving DecidableEq

/-- Insertion step of an ascending insertion sort. -/
def insSorted (a : ℚ) : List ℚ → List ℚ
  | [] => [a]
  | b :: t => if a ≤ b then a :: b :: t else b :: insSorted a t

/-- Ascending sort of a sample vector. -/
def sortQ (l : List ℚ) : List ℚ := l.foldr insSorted []

/-- Modelled from the spec: a nearest-rank quantile of the sample vector (the
spec fixes only that the interval endpoints are the `(1-cl)/2` and
`1-(1-cl)/2` quantiles of the samples). -/
def quantileQ (samples : List ℚ) (q : ℚ) : ℚ :=
  (sortQ samples).getD (Int.toNat ⌊q * (samples.length : ℚ)⌋) 0

/-- Modelled from the spec: `RandomVariates.equal_tail_confidence_interval`
returns the two equal-tail quantiles and requires `0 < cl < 1`, failing with a
ValueError otherwise. -/
def equal_tail_confidence_interval (rv : RandomVariates) (cl : ℚ) :
    Except String (ℚ × ℚ) :=
  if 0 < cl ∧ cl < 1 then
    .ok (quantileQ rv.samples ((1 - cl) / 2), quantileQ rv.samples (1 - (1 - cl) / 2))
  else
    .error ("ValueError: confidence level must be in the open interval 0..1")

/-- `_AnalysisResults.get_variates`: asserts the path is a free parameter,
then pairs that parameter's stored sample row with its best-fit value. -/
def get_variates (ar : AnalysisResults) (param_path : String) :
    Except String RandomVariates :=
  if param_path ∈ ar.optimized_model.free_parameters.map (fun p => p.name) then
    .ok { samples := ar.samples_transposed.getD
            ((ar.optimized_model.free_parameters.map (fun p => p.name)).indexOf param_path) []
          value := (Model.values ar.optimized_model).getD
            ((ar.optimized_model.free_parameters.map (fun p => p.name)).indexOf param_path) 0 }
  else
    .error ("Parameter " ++ param_path ++ " is not a free parameters of the model")

/-- One row of the parameter data frame. -/
structure DFRow where
  value : ℚ
  negative_error : ℚ
  positive_error : ℚ
  error : ℚ
  unit : String
deriving DecidableEq

/-- `_AnalysisResults.get_data_frame`: dispatches on the error kind ("equal
tail" computes equal-tail intervals; "hpd" falls back to the same computation;
anything else raises ValueError), then builds one row per free parameter. -/
def get_data_frame (ar : AnalysisResults) (error_type : String) (cl : ℚ) :
    Except String (List (String × DFRow)) := do
  let errors_gatherer ←
    if error_type = "equal tail" then
      Except.ok equal_tail_confidence_interval
    else if error_type = "hpd" then
      Except.ok equal_tail_confidence_interval
    else
      Except.error ("error_type must be either equal tail or hpd. Got " ++ error_type)
  ar.optimized_model.free_parameters.mapM (fun p => do
    let phys_q ← get_variates ar p.name
    let bounds ← errors_gatherer phys_q cl
    Except.ok (p.name,
      { value := phys_q.value
        negative_error := bounds.1 - phys_q.value
        positive_error := bounds.2 - phys_q.value
        error := (bounds.2 - bounds.1) / 2
        unit := p.unit }))

/-! ### Column schema inference (`io/fits_file.py`, `FITSExtension.__init__`) -/

/-- numpy dtypes that can reach the column builder. -/
inductive NpDtype
  | i16
  | i32
  | i64
  | u16
  | u32
  | f32
  | f64
  | strT
  | objT
deriving DecidableEq

/-- `_NUMPY_TO_FITS_CODE`: numpy dtype to FITS TFORM code.  A dtype missing
from the dictionary is a Python `KeyError`. -/
def _NUMPY_TO_FITS_CODE : NpDtype → Option String
  | .i16 => some ("I")
  | .i32 => some ("J")
  | .i64 => some ("K")
  | .u16 => some ("U")
  | .u32 => some ("V")
  | .f32 => some ("E")
  | .f64 => some ("D")
  | .strT => none
  | .objT => none

/-- One cell of a column handed to the extension builder: a unit-carrying
scalar quantity, a string, a plain scalar number, an array-like of cells, or
an opaque object (e.g. a dict). -/
inductive Cell
  | quantity (v : ℚ) (dtype : NpDtype) (unit : String)
  | str (s : String)
  | num (v : ℚ) (dtype : NpDtype)
  | arr (elems : List Cell)
  | obj

/-- Dtype probe `np.array(x).dtype.type` on a cell.  An opaque object probes
as the generic object dtype; a nested array-like cell is also modelled as
object (such cells never occur in the writer's columns). -/
def Cell.dtypeOf : Cell → NpDtype
  | .quantity _ d _ => d
  | .str _ => .strT
  | .num _ d => d
  | .arr _ => .objT
  | .obj => .objT

/-- Python `len` of a cell; `none` models the `TypeError` raised on cells
without a length. -/
def Cell.lenOf : Cell → Option Nat
  | .str s => some s.length
  | .arr l => some l.length
  | _ => none

/-- Length of `max(column_data, key=len)`, i.e. the longest entry. -/
def maxLenOf (column_data : List Cell) : Except String Nat :=
  match column_data.mapM Cell.lenOf with
  | some lens => .ok (lens.foldl max 0)
  | none => .error ("TypeError: object has no len")

/-- Python name of a numpy dtype, as interpolated into error messages. -/
def NpDtype.pyName : NpDtype → String
  | .i16 => "int16"
  | .i32 => "int32"
  | .i64 => "int64"
  | .u16 => "uint16"
  | .u32 => "uint32"
  | .f32 => "float32"
  | .f64 => "float64"
  | .strT => "str_"
  | .objT => "object_"

/-- The TFORM format and unit inferred for a named column. -/
structure FitsColDesc where
  name : String
  format : String
  unit : Option String
deriving DecidableEq

/-- One iteration of the `FITSExtension.__init__` column loop: inspect only
the first element of the column and decide the on-disk encoding.  `coerceOk`
models numpy elementwise dtype coercion (`np.array(test_value, col_type)`
succeeds iff every entry of `test_value` coerces), an external numpy
behavior. -/
def buildColumn (coerceOk : Cell → NpDtype → Bool) (column_name : String)
    (column_data : List Cell) : Except String FitsColDesc :=
  match column_data.head? with
  | none => .error ("IndexError: column " ++ column_name ++ " is empty")
  | some test_value =>
    match test_value with
    | .quantity _ d unit =>
      match _NUMPY_TO_FITS_CODE d with
      | some code => .ok { name := column_name, format := code, unit := some unit }
      | none => .error ("KeyError")
    | .str _ => do
      let max_string_length ← maxLenOf column_data
      .ok { name := column_name, format := toString max_string_length ++ "A", unit := none }
    | .num _ d =>
      match _NUMPY_TO_FITS_CODE d with
      | some code => .ok { name := column_name, format := code, unit := none }
      | none => .error ("KeyError")
    | .arr elems =>
      match elems.head? with
      | none => .error ("Could not understand type of column " ++ column_name)
      | some e0 =>
        if Cell.dtypeOf e0 = .objT then
          .error ("AssertionError")
        else if elems.all (fun e => coerceOk e (Cell.dtypeOf e0)) then
          match _NUMPY_TO_FITS_CODE (Cell.dtypeOf e0) with
          | some code =>
            .ok { name := column_name, format := toString elems.length ++ code, unit := none }
          | none => .error ("KeyError")
        else
          .error ("Column " ++ column_name ++ " contain data which cannot be coerced to "
            ++ (Cell.dtypeOf e0).pyName)
    | .obj =>
      .error ("Column " ++ column_name ++ " in dataframe contains objects which are not strings")

/-! ### Container writer and reader -/

/-- FITS header keys: ordinary keywords, and the indexed `STAT%i` / `PN%i`
pairs.  The reader's scan `key.find("STAT") == 0` followed by
`int(key.replace("STAT", ""))` is modelled structurally: for every key the
writer emits, that scan recognizes exactly the `STAT i` shape. -/
inductive HKey
  | kw (s : String)
  | STAT (i : Nat)
  | PN (i : Nat)
deriving DecidableEq

/-- FITS header values: strings, escaped text, numbers, or `None`. -/
inductive HVal
  | hstr (s : String)
  | hchars (s : List Char)
  | hnum (q : ℚ)
  | hnone
deriving DecidableEq

/-- A FITS header: keyword/value pairs in file order. -/
abbrev Header := List (HKey × HVal)

/-- `header.get(key)`: value of the first matching keyword, `None` if absent. -/
def getH (h : Header) (k : HKey) : Option HVal :=
  (h.find? (fun p => decide (p.1 = k))).map (fun p => p.2)

/-- `header.set(key, value)`: update the keyword in place if present, else
append it at the end. -/
def setH (h : Header) (k : HKey) (v : HVal) : Header :=
  if h.any (fun p => decide (p.1 = k)) then
    h.map (fun p => if p.1 = k then (k, v) else p)
  else
    h ++ [(k, v)]

/-- Stored column payload of an extension (typed, optionally unit-tagged
columns of the external astropy binary table). -/
inductive ColData
  | nums (v : List ℚ)
  | strs (v : List String)
  | mat (m : Mat)
deriving DecidableEq

/-- One extension block of the container. -/
structure FITSExt where
  extname : String
  header : Header
  data : List (String × Option String × ColData)
deriving DecidableEq

/-- The container: primary header plus extension blocks. -/
structure FITSFileM where
  primary : Header
  extensions : List FITSExt
deriving DecidableEq

/-- The `_HEADER_KEYWORDS` template of the ANALYSIS_RESULTS extension. -/
def arHeader0 : Header :=
  [(.kw "EXTNAME", .hstr "ANALYSIS_RESULTS"),
   (.kw "MODEL", .hnone),
   (.kw "ORIGIN", .hstr "3ML"),
   (.kw "RESUTYPE", .hnone)]

/-- The `STAT%i` / `PN%i` keyword pairs, set in enumeration order starting at
index `i`. -/
def addStats (h : Header) (stats : Stats) (i : Nat) : Header :=
  match stats with
  | [] => h
  | (plugin_instance_name, stat_value) :: rest =>
    addStats (setH (setH h (.STAT i) (.hnum stat_value)) (.PN i)
      (.hstr plugin_instance_name)) rest (i + 1)

/-- The covariance and samples columns of the extension: an MLE record stores
its (shape-checked) covariance matrix and a length-n zero vector as samples; a
Bayesian record stores a zero vector as covariance and its transposed sample
matrix. -/
def covSampCols (analysis_results : AnalysisResults) : Except String (ColData × ColData) :=
  if analysis_results.analysis_type = "MLE" then
    match analysis_results.covariance_matrix with
    | some covariance_matrix =>
      if covariance_matrix.length = analysis_results.optimized_model.free_parameters.length ∧
          covariance_matrix.all (fun row =>
            row.length = analysis_results.optimized_model.free_parameters.length) then
        .ok (ColData.mat covariance_matrix,
          ColData.nums (List.replicate
            analysis_results.optimized_model.free_parameters.length (0 : ℚ)))
      else
        .error ("Matrix has the wrong shape. Should be "
          ++ toString analysis_results.optimized_model.free_parameters.length ++ " x "
          ++ toString analysis_results.optimized_model.free_parameters.length)
    | none => .error ("AttributeError: covariance_matrix")
  else
    .ok (ColData.nums (List.replicate
          analysis_results.optimized_model.free_parameters.length (0 : ℚ)),
      ColData.mat analysis_results.samples_transposed)

/-- The header of the extension: the `_HEADER_KEYWORDS` template, the CREATOR
keyword set by `FITSExtension.__init__`, the MODEL and RESUTYPE updates, and
the appended STAT/PN pairs. -/
def arHeaderFull (analysis_results : AnalysisResults) (yaml : List Char) : Header :=
  addStats
    (setH (setH (setH arHeader0 (.kw "CREATOR") (.hstr "3ML"))
        (.kw "MODEL") (.hchars yaml))
      (.kw "RESUTYPE") (.hstr analysis_results.analysis_type))
    analysis_results.optimal_statistic_values 0

/-- The `data_tuple` of the extension: one column per parameter attribute,
plus the covariance and samples columns. -/
def arDataList (analysis_results : AnalysisResults) (data_frame : List (String × DFRow))
    (covariance_col samples_col : ColData) : List (String × Option String × ColData) :=
  [("NAME", none,
      ColData.strs (analysis_results.optimized_model.free_parameters.map (fun p => p.name))),
   ("VALUE", none, ColData.nums (data_frame.map (fun r => r.2.value))),
   ("NEGATIVE_ERROR", none, ColData.nums (data_frame.map (fun r => r.2.negative_error))),
   ("POSITIVE_ERROR", none, ColData.nums (data_frame.map (fun r => r.2.positive_error))),
   ("ERROR", none, ColData.nums (data_frame.map (fun r => r.2.error))),
   ("UNIT", none, ColData.strs (data_frame.map (fun r => r.2.unit))),
   ("COVARIANCE", none, covariance_col),
   ("SAMPLES", none, samples_col)]

/-- `ANALYSIS_RESULTS.__init__` together with the `FITSExtension.__init__`
header handling: the extension block for one result record.  `yaml_dump`
models `my_yaml.dump(optimized_model.to_dict_with_types())` (astromodels, an
external collaborator); the serialized model is escaped before storage and the
parameter table always uses equal-tail errors at the default `cl = 0.68`. -/
def ANALYSIS_RESULTS.build (analysis_results : AnalysisResults)
    (yaml_dump : Model → List Char) : Except String FITSExt :=
  match covSampCols analysis_results with
  | .error e => .error e
  | .ok (covariance_col, samples_col) =>
    match get_data_frame analysis_results ("equal tail") (17 / 25) with
    | .error e => .error e
    | .ok data_frame =>
      .ok { extname := "ANALYSIS_RESULTS"
            header := arHeaderFull analysis_results
              (_escape_yaml_for_fits (yaml_dump analysis_results.optimized_model))
            data := arDataList analysis_results data_frame covariance_col samples_col }

/-- `AnalysisResultsFITS.__init__` on one record followed by `write_to`: one
ANALYSIS_RESULTS extension tagged `EXTVER 1` after the primary header (file
output itself is external; the produced value is the container). -/
def write_to (ar : AnalysisResults) (yaml_dump : Model → List Char) :
    Except String FITSFileM :=
  match ANALYSIS_RESULTS.build ar yaml_dump with
  | .error e => .error e
  | .ok ext =>
    .ok { primary := [(.kw "ORIGIN", .hstr "3ML")]
          extensions := [{ ext with header := setH ext.header (.kw "EXTVER") (.hnum 1) }] }

/-- astropy `f[name, ver]`: extension lookup by name and version (the writer
always sets `EXTVER` on result extensions). -/
def lookupExtVer (f : FITSFileM) (name : String) (ver : Nat) : Except String FITSExt :=
  match f.extensions.find? (fun e =>
      e.extname == name && (getH e.header (.kw "EXTVER") == some (.hnum ver))) with
  | some e => Except.ok e
  | none => Except.error ("KeyError: extension (" ++ name ++ ", " ++ toString ver
      ++ ") not found")

/-- astropy `f[name]`: extension lookup by name; a missing extension is a
`KeyError`. -/
def lookupExtName (f : FITSFileM) (name : String) : Except String FITSExt :=
  match f.extensions.find? (fun e => e.extname == name) with
  | some e => Except.ok e
  | none => Except.error ("KeyError: extension " ++ name ++ " not found")

/-- `statistic_values[name] = value` on an ordered mapping: update in place if
the key exists, else append. -/
def odInsert (acc : Stats) (name : String) (v : ℚ) : Stats :=
  if acc.any (fun p => decide (p.1 = name)) then
    acc.map (fun p => if p.1 = name then (name, v) else p)
  else
    acc ++ [(name, v)]

/-- The reader's scan over `header.keys()`: every `STAT%i` keyword contributes
the statistic value (as float) of the plugin named by the `PN%i` keyword. -/
def gatherStats (full : Header) : List (HKey × HVal) → Stats → Except String Stats
  | [], acc => Except.ok acc
  | (key, v) :: rest, acc =>
    match key with
    | .STAT i =>
      match v with
      | .hnum q =>
        match getH full (.PN i) with
        | some (.hstr s) => gatherStats full rest (odInsert acc s q)
        | _ => Except.error ("TypeError: missing PN keyword")
      | _ => Except.error ("ValueError: could not convert header value to float")
    | _ => gatherStats full rest acc

/-- `data.field(name)` for a matrix-valued column. -/
def fieldMat (ext : FITSExt) (name : String) : Except String Mat :=
  match ext.data.find? (fun c => c.1 == name) with
  | some (_, _, .mat m) => Except.ok m
  | some _ => Except.error ("KeyError: column " ++ name ++ " is not a matrix column")
  | none => Except.error ("KeyError: field " ++ name ++ " not found")

/-- `_load_one_results`: read the analysis-type tag, unescape and parse the
stored model (via the external astromodels parser `parse`), gather the
statistic keywords, and dispatch on the tag.  A tag that is neither "MLE" nor
"Bayesian" falls off the `if`/`elif` chain and the Python function returns
`None`, modelled as `.ok none`. -/
def _load_one_results (fits_extension : FITSExt)
    (parse : List Char → Except String Model)
    (mvn : List ℚ → Mat → Nat → Mat) :
    Except String (Option AnalysisResults) := do
  let serialized_model ← match getH fits_extension.header (.kw "MODEL") with
    | some (.hchars s) => Except.ok s
    | _ => Except.error ("TypeError: missing MODEL keyword")
  let optimized_model ← parse (_escape_back_yaml_from_fits serialized_model)
  let statistic_values ← gatherStats fits_extension.header fits_extension.header []
  if getH fits_extension.header (.kw "RESUTYPE") = some (.hstr "MLE") then do
    let covariance_matrix ← fieldMat fits_extension ("COVARIANCE")
    let r ← MLEResults.init optimized_model (.mat (transposeM covariance_matrix))
      statistic_values 5000 mvn
    Except.ok (some r.1)
  else if getH fits_extension.header (.kw "RESUTYPE") = some (.hstr "Bayesian") then do
    let samples ← fieldMat fits_extension ("SAMPLES")
    let r ← BayesianResults.init optimized_model (transposeM samples) statistic_values
    Except.ok (some r)
  else
    Except.ok none

/-- Sequence descriptor columns: name, optional unit, values. -/
abbrev SeqTuple := List (String × Option String × ColData)

/-- `AnalysisResultsSet`: ordered fixed collection of loaded records with an
optional sequence descriptor. -/
structure AnalysisResultsSet where
  results : List (Option AnalysisResults)
  sequence_name : Option HVal
  sequence_tuple : Option SeqTuple
deriving DecidableEq

/-- Row count of a stored column. -/
def colLen : ColData → Nat
  | .nums v => v.length
  | .strs v => v.length
  | .mat m => m.length

/-- `AnalysisResultsSet.characterize_sequence`: checks every column length
against the set size, then stores the descriptor. -/
def characterize_sequence (s : AnalysisResultsSet) (name : Option HVal)
    (data_tuple : SeqTuple) : Except String AnalysisResultsSet :=
  if data_tuple.all (fun c => colLen c.2.2 = s.results.length) then
    Except.ok { s with sequence_name := name, sequence_tuple := some data_tuple }
  else
    Except.error ("AssertionError: column in tuple has the wrong length")

/-- `_load_set_of_results`: reconstruct each block in order, build the set,
then unconditionally read the SEQUENCE extension and attach its descriptor. -/
def _load_set_of_results (f : FITSFileM) (n_results : Nat)
    (parse : List Char → Except String Model)
    (mvn : List ℚ → Mat → Nat → Mat) : Except String AnalysisResultsSet := do
  let all_results ← (List.range n_results).mapM (fun i => do
    let ext ← lookupExtVer f ("ANALYSIS_RESULTS") (i + 1)
    _load_one_results ext parse mvn)
  let sequence_ext ← lookupExtName f ("SEQUENCE")
  characterize_sequence
    { results := all_results, sequence_name := none, sequence_tuple := none }
    (getH sequence_ext.header (.kw "SEQ_TYPE")) sequence_ext.data

/-- Result of `load_analysis_results`: one record (possibly Python `None`) or
a set. -/
inductive LoadedResult
  | single (r : Option AnalysisResults)
  | resultSet (s : AnalysisResultsSet)
deriving DecidableEq

/-- `load_analysis_results`: count the ANALYSIS_RESULTS extensions; exactly
one gives the single-result path, any other count the set path. -/
def load_analysis_results (f : FITSFileM)
    (parse : List Char → Except String Model)
    (mvn : List ℚ → Mat → Nat → Mat) : Except String LoadedResult := do
  if (f.extensions.map (fun e => e.extname)).count ("ANALYSIS_RESULTS") = 1 then do
    let ext ← lookupExtVer f ("ANALYSIS_RESULTS") 1
    let r ← _load_one_results ext parse mvn
    Except.ok (.single r)
  else do
    let s ← _load_set_of_results f
      ((f.extensions.map (fun e => e.extname)).count ("ANALYSIS_RESULTS")) parse mvn
    Except.ok (.resultSet s)

/-! ### Support lemmas for the round-trip proofs -/

theorem except_bind_ok {α β : Type} (x : α) (f : α → Except String β) :
    (Except.ok x : Except String α) >>= f = f x := rfl

theorem except_bind_error {α β : Type} (e : String) (f : α → Except String β) :
    (Except.error e : Except String α) >>= f = Except.error e := rfl

theorem values_length (m : Model) :
    (Model.values m).length = m.free_parameters.length := by
  simp [Model.values]

theorem find?_map_update_self (h : Header) (k : HKey) (v : HVal)
    (hany : (h.any fun p => decide (p.1 = k)) = true) :
    (h.map (fun p => if p.1 = k then (k, v) else p)).find? (fun p => decide (p.1 = k)) =
      some (k, v) := by
  induction h with
  | nil => simp at hany
  | cons q t ih =>
    simp only [List.map_cons]
    by_cases hq : q.1 = k
    · rw [if_pos hq]
      simp [List.find?_cons]
    · rw [if_neg hq]
      rw [List.find?_cons_of_neg _ (by simpa using hq)]
      apply ih
      simp only [List.any_cons, Bool.or_eq_true, decide_eq_true_eq] at hany
      rcases hany with h1 | h2
      · exact absurd h1 hq
      · exact h2

theorem getH_setH_self (h : Header) (k : HKey) (v : HVal) :
    getH (setH h k v) k = some v := by
  unfold setH
  split
  · rename_i hany
    unfold getH
    rw [find?_map_update_self h k v hany]
    rfl
  · rename_i hany
    unfold getH
    rw [List.find?_append]
    have hnone : h.find? (fun p => decide (p.1 = k)) = none := by
      apply List.find?_eq_none.mpr
      intro p hp
      simp only [decide_eq_true_eq]
      intro hc
      exact hany (List.any_eq_true.mpr ⟨p, hp, by simp [hc]⟩)
    rw [hnone]
    simp [List.find?_cons]

theorem find?_map_update_ne (h : Header) (k kp : HKey) (v : HVal) (hne : kp ≠ k) :
    (h.map (fun p => if p.1 = k then (k, v) else p)).find? (fun p => decide (p.1 = kp)) =
      h.find? (fun p => decide (p.1 = kp)) := by
  induction h with
  | nil => rfl
  | cons q t ih =>
    simp only [List.map_cons]
    by_cases hq : q.1 = k
    · rw [if_pos hq]
      rw [List.find?_cons_of_neg _ (by simp only [decide_eq_true_eq]; exact fun e => hne e.symm)]
      rw [List.find?_cons_of_neg _
        (by simp only [decide_eq_true_eq, hq]; exact fun e => hne e.symm)]
      exact ih
    · rw [if_neg hq]
      by_cases hqp : q.1 = kp
      · rw [List.find?_cons_of_pos _ (by simp [hqp]), List.find?_cons_of_pos _ (by simp [hqp])]
      · rw [List.find?_cons_of_neg _ (by simpa using hqp),
          List.find?_cons_of_neg _ (by simpa using hqp)]
        exact ih

theorem getH_setH_ne (h : Header) (k kp : HKey) (v : HVal) (hne : kp ≠ k) :
    getH (setH h k v) kp = getH h kp := by
  unfold setH
  split
  · unfold getH
    rw [find?_map_update_ne h k kp v hne]
  · unfold getH
    rw [List.find?_append]
    have hsing : ([(k, v)] : Header).find? (fun p => decide (p.1 = kp)) = none := by
      rw [List.find?_cons_of_neg _ (by simp only [decide_eq_true_eq]; exact fun e => hne e.symm)]
      rfl
    rw [hsing]
    cases h.find? (fun p => decide (p.1 = kp)) <;> rfl

theorem mem_setH (h : Header) (k : HKey) (v : HVal) :
    ∀ p ∈ setH h k v, p ∈ h ∨ p.1 = k := by
  intro p hp
  unfold setH at hp
  split at hp
  · simp only [List.mem_map] at hp
    obtain ⟨q, hq, hqe⟩ := hp
    by_cases hqk : q.1 = k
    · rw [if_pos hqk] at hqe
      right
      rw [← hqe]
    · rw [if_neg hqk] at hqe
      exact Or.inl (hqe ▸ hq)
  · rcases List.mem_append.mp hp with hl | hr
    · exact Or.inl hl
    · right
      simp only [List.mem_singleton] at hr
      rw [hr]


/-- The STAT/PN entries appended for a statistic mapping, starting at index
`i`. -/
def statEntries (stats : Stats) (i : Nat) : Header :=
  match stats with
  | [] => []
  | (n, v) :: rest => (.STAT i, .hnum v) :: (.PN i, .hstr n) :: statEntries rest (i + 1)

theorem addStats_eq_append (stats : Stats) :
    ∀ (h : Header) (i : Nat),
      (∀ p ∈ h, ∀ j, i ≤ j → p.1 ≠ .STAT j ∧ p.1 ≠ .PN j) →
      addStats h stats i = h ++ statEntries stats i := by
  induction stats with
  | nil => intro h i _; simp [addStats, statEntries]
  | cons nv rest ih =>
    intro h i hfresh
    obtain ⟨n, v⟩ := nv
    have h1 : setH h (.STAT i) (.hnum v) = h ++ [(.STAT i, .hnum v)] := by
      unfold setH
      rw [if_neg]
      intro hany
      obtain ⟨p, hp, hpk⟩ := List.any_eq_true.mp hany
      exact (hfresh p hp i (Nat.le_refl i)).1 (by simpa using hpk)
    have h2 : setH (h ++ [(.STAT i, .hnum v)]) (.PN i) (.hstr n) =
        h ++ [(.STAT i, .hnum v), (.PN i, .hstr n)] := by
      unfold setH
      rw [if_neg]
      · simp
      · intro hany
        obtain ⟨p, hp, hpk⟩ := List.any_eq_true.mp hany
        rcases List.mem_append.mp hp with hl | hr
        · exact (hfresh p hl i (Nat.le_refl i)).2 (by simpa using hpk)
        · simp only [List.mem_singleton] at hr
          rw [hr] at hpk
          simp at hpk
    show addStats (setH (setH h (.STAT i) (.hnum v)) (.PN i) (.hstr n)) rest (i + 1) = _
    rw [h1, h2, ih _ (i + 1) ?_]
    · simp [statEntries]
    · intro p hp j hj
      rcases List.mem_append.mp hp with hl | hr
      · exact hfresh p hl j (by omega)
      · simp only [List.mem_cons, List.mem_singleton] at hr
        rcases hr with rfl | rfl | h0
        · constructor <;> (intro hc; simp at hc; try omega)
        · constructor <;> (intro hc; simp at hc; try omega)
        · simp at h0

theorem getH_cons_of_ne (p : HKey × HVal) (l : Header) (k : HKey) (h : p.1 ≠ k) :
    getH (p :: l) k = getH l k := by
  unfold getH
  rw [List.find?_cons_of_neg _ (by simpa using h)]

theorem getH_cons_of_eq (p : HKey × HVal) (l : Header) (k : HKey) (h : p.1 = k) :
    getH (p :: l) k = some p.2 := by
  unfold getH
  rw [List.find?_cons_of_pos _ (by simpa using h)]
  rfl

theorem getH_append_of_none (h₁ h₂ : Header) (k : HKey)
    (h : ∀ p ∈ h₁, p.1 ≠ k) : getH (h₁ ++ h₂) k = getH h₂ k := by
  induction h₁ with
  | nil => rfl
  | cons q t ih =>
    rw [List.cons_append, getH_cons_of_ne q _ k (h q (by simp))]
    exact ih (fun p hp => h p (by simp [hp]))

theorem getH_addStats_kw (stats : Stats) :
    ∀ (h : Header) (i : Nat) (s : String),
      getH (addStats h stats i) (.kw s) = getH h (.kw s) := by
  induction stats with
  | nil => intro h i s; rfl
  | cons nv rest ih =>
    intro h i s
    obtain ⟨n, v⟩ := nv
    show getH (addStats (setH (setH h (.STAT i) (.hnum v)) (.PN i) (.hstr n)) rest (i + 1))
      (.kw s) = _
    rw [ih, getH_setH_ne _ _ _ _ (by simp), getH_setH_ne _ _ _ _ (by simp)]

theorem gatherStats_skip (full : Header) (B : List (HKey × HVal)) :
    ∀ (A : List (HKey × HVal)) (acc : Stats),
      (∀ p ∈ A, ∀ i, p.1 ≠ HKey.STAT i) →
      gatherStats full (A ++ B) acc = gatherStats full B acc := by
  intro A
  induction A with
  | nil => intro acc _; rfl
  | cons q t ih =>
    intro acc hA
    obtain ⟨key, v⟩ := q
    cases key with
    | STAT i => exact absurd rfl (hA (⟨HKey.STAT i, v⟩) (by simp) i)
    | kw s =>
      show gatherStats full (t ++ B) acc = _
      exact ih acc (fun p hp i => hA p (by simp [hp]) i)
    | PN i =>
      show gatherStats full (t ++ B) acc = _
      exact ih acc (fun p hp j => hA p (by simp [hp]) j)

theorem mem_statEntries (stats : Stats) :
    ∀ (i : Nat) (p : HKey × HVal), p ∈ statEntries stats i →
      (∃ j, p.1 = HKey.STAT j) ∨ (∃ j, p.1 = HKey.PN j) := by
  induction stats with
  | nil => intro i p hp; simp [statEntries] at hp
  | cons nv rest ih =>
    intro i p hp
    obtain ⟨n, v⟩ := nv
    simp only [statEntries, List.mem_cons] at hp
    rcases hp with rfl | rfl | hp
    · exact Or.inl ⟨i, rfl⟩
    · exact Or.inr ⟨i, rfl⟩
    · exact ih (i + 1) p hp

theorem getH_statEntries_PN (stats : Stats) :
    ∀ (i j : Nat) (hj : j < stats.length),
      getH (statEntries stats i) (.PN (i + j)) = some (.hstr (stats.get ⟨j, hj⟩).1) := by
  induction stats with
  | nil => intro i j hj; simp at hj
  | cons nv rest ih =>
    intro i j hj
    obtain ⟨n, v⟩ := nv
    cases j with
    | zero =>
      show getH ((HKey.STAT i, HVal.hnum v) :: (HKey.PN i, HVal.hstr n) ::
        statEntries rest (i + 1)) (.PN (i + 0)) = _
      rw [getH_cons_of_ne _ _ _ (by simp), getH_cons_of_eq _ _ _ (by simp)]
      rfl
    | succ jp =>
      show getH ((HKey.STAT i, HVal.hnum v) :: (HKey.PN i, HVal.hstr n) ::
        statEntries rest (i + 1)) (.PN (i + (jp + 1))) = _
      rw [getH_cons_of_ne _ _ _ (by simp), getH_cons_of_ne _ _ _ (by simp)]
      have := ih (i + 1) jp (by simpa using hj)
      rw [show i + (jp + 1) = (i + 1) + jp by omega]
      exact this

theorem odInsert_fresh (acc : Stats) (n : String) (v : ℚ)
    (h : (acc.any fun p => decide (p.1 = n)) = false) :
    odInsert acc n v = acc ++ [(n, v)] := by
  unfold odInsert
  rw [if_neg]
  simp [h]

theorem gatherStats_entries (full : Header) (stats : Stats) :
    ∀ (i : Nat) (rest : List (HKey × HVal)) (acc : Stats),
      (∀ (j : Nat) (hj : j < stats.length),
        getH full (.PN (i + j)) = some (.hstr (stats.get ⟨j, hj⟩).1)) →
      (∀ nm, nm ∈ stats.map Prod.fst → (acc.any fun p => decide (p.1 = nm)) = false) →
      (stats.map Prod.fst).Nodup →
      gatherStats full (statEntries stats i ++ rest) acc =
        gatherStats full rest (acc ++ stats) := by
  induction stats with
  | nil => intro i rest acc _ _ _; simp [statEntries]
  | cons nv tail ih =>
    intro i rest acc hPN hfresh hnodup
    obtain ⟨n, v⟩ := nv
    have h0 := hPN 0 (by simp)
    simp only [Nat.add_zero] at h0
    show gatherStats full ((HKey.STAT i, HVal.hnum v) :: (HKey.PN i, HVal.hstr n) ::
      (statEntries tail (i + 1) ++ rest)) acc = _
    rw [gatherStats, h0]
    show gatherStats full (statEntries tail (i + 1) ++ rest) (odInsert acc n v) = _
    rw [odInsert_fresh acc n v (hfresh n (by simp))]
    rw [ih (i + 1) rest (acc ++ [(n, v)]) ?hPN ?hfresh ?hnodup]
    · rw [List.append_assoc]
      rfl
    case hPN =>
      intro j hj
      have := hPN (j + 1) (by simpa using hj)
      rw [show i + (j + 1) = (i + 1) + j by omega] at this
      exact this
    case hfresh =>
      intro nm hnm
      rw [List.any_append]
      have h1 : (acc.any fun p => decide (p.1 = nm)) = false :=
        hfresh nm (by simp [hnm])
      have h2 : (([(n, v)] : Stats).any fun p => decide (p.1 = nm)) = false := by
        simp only [List.any_cons, List.any_nil, Bool.or_false, decide_eq_false_iff_not]
        intro hc
        subst hc
        simp only [List.map_cons, List.nodup_cons] at hnodup
        exact hnodup.1 hnm
      rw [h1, h2]
      rfl
    case hnodup =>
      simp only [List.map_cons, List.nodup_cons] at hnodup
      exact hnodup.2

/-- Every key of a header is a plain keyword drawn from the list `S`. -/
def kwIn (S : List String) (h : Header) : Prop :=
  ∀ p ∈ h, ∃ s ∈ S, p.1 = HKey.kw s

theorem kwIn_setH (S : List String) (h : Header) (s₀ : String) (v : HVal)
    (hh : kwIn S h) (hs : s₀ ∈ S) : kwIn S (setH h (.kw s₀) v) := by
  intro p hp
  rcases mem_setH h (.kw s₀) v p hp with hmem | hkey
  · exact hh p hmem
  · exact ⟨s₀, hs, hkey⟩

def arKwSet : List String := ["EXTNAME", "MODEL", "ORIGIN", "RESUTYPE", "CREATOR"]

theorem kwIn_arHeader0 : kwIn arKwSet arHeader0 := by
  intro p hp
  simp only [arHeader0, List.mem_cons, List.not_mem_nil, or_false] at hp
  rcases hp with rfl | rfl | rfl | rfl
  · exact ⟨"EXTNAME", by simp [arKwSet], rfl⟩
  · exact ⟨"MODEL", by simp [arKwSet], rfl⟩
  · exact ⟨"ORIGIN", by simp [arKwSet], rfl⟩
  · exact ⟨"RESUTYPE", by simp [arKwSet], rfl⟩

theorem mapM_ok {α β : Type} (l : List α) (f : α → Except String β)
    (h : ∀ a ∈ l, ∃ b, f a = .ok b) : ∃ bs, l.mapM f = .ok bs := by
  induction l with
  | nil => exact ⟨[], rfl⟩
  | cons a t ih =>
    obtain ⟨b, hb⟩ := h a (by simp)
    obtain ⟨bs, hbs⟩ := ih (fun x hx => h x (by simp [hx]))
    refine ⟨b :: bs, ?_⟩
    rw [List.mapM_cons, hb]
    show (Except.ok b >>= fun b => List.mapM f t >>= fun bs => pure (b :: bs)) = _
    rw [except_bind_ok, hbs]
    rfl

theorem get_variates_ok (ar : AnalysisResults) (p : Param)
    (hp : p ∈ ar.optimized_model.free_parameters) :
    ∃ rv, get_variates ar p.name = .ok rv := by
  unfold get_variates
  rw [if_pos (List.mem_map_of_mem _ hp)]
  exact ⟨_, rfl⟩

theorem get_data_frame_ok (ar : AnalysisResults) (cl : ℚ) (h0 : 0 < cl) (h1 : cl < 1) :
    ∃ df, get_data_frame ar ("equal tail") cl = .ok df := by
  unfold get_data_frame
  rw [if_pos rfl, except_bind_ok]
  apply mapM_ok
  intro p hp
  obtain ⟨rv, hrv⟩ := get_variates_ok ar p hp
  rw [hrv, except_bind_ok]
  unfold equal_tail_confidence_interval
  rw [if_pos ⟨h0, h1⟩, except_bind_ok]
  exact ⟨_, rfl⟩

theorem all_rows_of (S : Mat) (k : Nat) (h : ∀ row ∈ S, row.length = k) :
    (S.all fun row => decide (row.length = k)) = true := by
  rw [List.all_eq_true]
  intro row hrow
  simp [h row hrow]

theorem Bayes_init_is_ok (m : Model) (S : Mat) (stats : Stats)
    (hrows : ∀ row ∈ S, row.length = m.free_parameters.length) :
    BayesianResults.init m S stats = .ok
      { n_free_parameters := m.free_parameters.length
        optimized_model := m
        samples_transposed := transposeM S
        optimal_statistic_values := stats
        analysis_type := "Bayesian"
        covariance_matrix := none } := by
  unfold BayesianResults.init _AnalysisResults.init
  rw [if_pos (all_rows_of S _ hrows)]
  rfl

theorem Bayes_init_fields (m : Model) (S : Mat) (stats : Stats) (ar : AnalysisResults)
    (h : BayesianResults.init m S stats = .ok ar) :
    ar.optimized_model = m ∧ ar.analysis_type = "Bayesian" ∧
    ar.covariance_matrix = none ∧ ar.optimal_statistic_values = stats ∧
    ar.samples_transposed = transposeM S := by
  unfold BayesianResults.init _AnalysisResults.init at h
  split at h
  · injection h with h'
    subst h'
    exact ⟨rfl, rfl, rfl, rfl, rfl⟩
  · exact absurd h (by simp)

theorem MLE_init_mat_is_ok (m : Model) (cov : Mat) (stats : Stats) (n : Nat)
    (mvn : List ℚ → Mat → Nat → Mat)
    (hlen : cov.length = m.free_parameters.length)
    (hcols : ∀ row ∈ cov, row.length = m.free_parameters.length)
    (hrows : ∀ row ∈ mvn (Model.values m) cov n, row.length = m.free_parameters.length) :
    ∃ ar w, MLEResults.init m (.mat cov) stats n mvn = .ok (ar, w) ∧
      ar.optimized_model = m ∧ ar.analysis_type = "MLE" ∧
      ar.covariance_matrix = some cov ∧ ar.optimal_statistic_values = stats ∧
      ar.n_free_parameters = m.free_parameters.length := by
  have hvl : (Model.values m).length = m.free_parameters.length := values_length m
  simp only [MLEResults.init]
  rw [if_pos ⟨by rw [hvl]; exact hlen, by rw [hvl]; exact all_rows_of cov _ hcols⟩]
  unfold MLEResults.finish
  have hbase : _AnalysisResults.init m (keptSamples m (mvn (Model.values m) cov n))
      stats ("MLE") = .ok
      { n_free_parameters := m.free_parameters.length
        optimized_model := m
        samples_transposed := transposeM (keptSamples m (mvn (Model.values m) cov n))
        optimal_statistic_values := stats
        analysis_type := "MLE"
        covariance_matrix := none } := by
    unfold _AnalysisResults.init
    rw [if_pos ?hkept]
    case hkept =>
      apply all_rows_of
      intro row hrow
      exact hrows row (List.mem_of_mem_filter hrow)
    rfl
  rw [hbase]
  exact ⟨_, _, rfl, rfl, rfl, rfl, rfl, rfl⟩

theorem _AnalysisResults_init_fields (m : Model) (samples : Mat) (stats : Stats)
    (atype : String) (base : AnalysisResults)
    (h : _AnalysisResults.init m samples stats atype = .ok base) :
    base = { n_free_parameters := m.free_parameters.length
             optimized_model := m
             samples_transposed := transposeM samples
             optimal_statistic_values := stats
             analysis_type := atype
             covariance_matrix := none } := by
  unfold _AnalysisResults.init at h
  split at h
  · injection h with h'
    exact h'.symm.trans rfl
  · exact absurd h (by simp)

theorem MLE_init_fields (m : Model) (cov : Mat) (stats : Stats) (n : Nat)
    (mvn : List ℚ → Mat → Nat → Mat) (ar : AnalysisResults) (w : Option (Nat × Nat))
    (h : MLEResults.init m (.mat cov) stats n mvn = .ok (ar, w)) :
    ar.optimized_model = m ∧ ar.analysis_type = "MLE" ∧
    ar.covariance_matrix = some cov ∧ ar.optimal_statistic_values = stats ∧
    cov.length = m.free_parameters.length ∧
    (∀ row ∈ cov, row.length = m.free_parameters.length) := by
  have hvl : (Model.values m).length = m.free_parameters.length := values_length m
  simp only [MLEResults.init] at h
  split at h
  · rename_i hc
    unfold MLEResults.finish at h
    split at h
    · rename_i base hbase
      injection h with h'
      have hb := _AnalysisResults_init_fields _ _ _ _ _ hbase
      subst hb
      have h1 := congrArg Prod.fst h'
      simp only at h1
      subst h1
      refine ⟨rfl, rfl, rfl, rfl, ?_, ?_⟩
      · rw [← hvl]; exact hc.1
      · intro row hrow
        rw [← hvl]
        have := List.all_eq_true.mp hc.2 row hrow
        simpa using this
    · exact absurd h (by simp)
  · exact absurd h (by simp)

theorem outOfBounds_values_false (m : Model)
    (hin : ∀ p ∈ m.free_parameters,
      (∀ b, p.min_value = some b → b ≤ p.value) ∧
      (∀ b, p.max_value = some b → p.value ≤ b)) :
    outOfBounds (m.free_parameters.map (fun p => p.min_value))
      (m.free_parameters.map (fun p => p.max_value)) (Model.values m) = false := by
  unfold outOfBounds
  rw [Bool.or_eq_false_iff]
  constructor
  · rw [Model.values, List.zip_map']
    refine List.any_eq_false.mpr ?_
    intro x hx
    obtain ⟨p, hp, rfl⟩ := List.mem_map.mp hx
    cases hb : p.max_value with
    | none => simp [hb]
    | some b =>
      simp only [hb, decide_eq_true_eq]
      exact fun hc => absurd hc (not_lt.mpr ((hin p hp).2 b hb))
  · rw [Model.values, List.zip_map']
    refine List.any_eq_false.mpr ?_
    intro x hx
    obtain ⟨p, hp, rfl⟩ := List.mem_map.mp hx
    cases hb : p.min_value with
    | none => simp [hb]
    | some b =>
      simp only [hb, decide_eq_true_eq]
      exact fun hc => absurd hc (not_lt.mpr ((hin p hp).1 b hb))

/-! ### Claim theorems -/

/-- Concrete multi-line input for the escaping round trip, containing all five
special characters. -/
def escRoundTripInput : List Char := "key: value".data ++ [cNL, cQ1, cQ2, cBO, cBC]

/-- Claim C2, counterexample.  The string "_NEWLINE" followed by a newline
character contains none of the five placeholder tokens, yet escaping and then
unescaping it does not return it (the code yields a newline followed by
"NEWLINE_").  Moreover the source's unescape iterates the substitution table
in the same order as the escape, not in reverse order: the two disagree on
"_QUOTE1_QUOTE2_". -/
theorem claim_C2_counterexample :
    ((subsL.all (fun p => !(hasSub p.2 ("_NEWLINE\n".data)))) = true ∧
      _escape_back_yaml_from_fits (_escape_yaml_for_fits ("_NEWLINE\n".data)) ≠
        "_NEWLINE\n".data) ∧
    _escape_back_yaml_from_fits ("_QUOTE1_QUOTE2_".data) ≠
      unescapeRevOrder ("_QUOTE1_QUOTE2_".data) :=
  ⟨⟨by decide, by decide⟩, by decide⟩

/-- Claim C2 (amended): for every string that contains none of the five core
substrings NEWLINE, QUOTE1, QUOTE2, PARO, PARC (and therefore none of the
placeholder tokens), applying the escape function and then the unescape
function returns the string unchanged, including multi-line text with
newlines, quotes and braces; the unescape applies the substitutions in the
same table order as the escape, each reversed in direction. -/
theorem claim_C2 (x : List Char) (h : coreFree x = true) :
    _escape_back_yaml_from_fits (_escape_yaml_for_fits x) = x :=
  unescape_escape_of_coreFree x h

/-- Witness for C2 on a concrete multi-line input with all five special
characters. -/
theorem claim_C2_witness :
    coreFree escRoundTripInput = true ∧
    _escape_back_yaml_from_fits (_escape_yaml_for_fits escRoundTripInput) =
      escRoundTripInput :=
  ⟨by decide, claim_C2 escRoundTripInput (by decide)⟩

/-- An extension whose RESUTYPE tag is neither MLE nor Bayesian. -/
def unknownTagExt : FITSExt :=
  ⟨"ANALYSIS_RESULTS",
   [(.kw "RESUTYPE", .hstr "FOO"), (.kw "MODEL", .hchars ("model: none".data))], []⟩

/-- The trivial external model parser used in concrete counterexamples. -/
def trivialParse : List Char → Except String Model := fun _ => .ok ⟨[]⟩

/-- The trivial external sampler used in concrete counterexamples. -/
def trivialMvn : List ℚ → Mat → Nat → Mat := fun _ _ _ => []

/-- Claim C3, counterexample: an extension tagged "FOO" (with a parsable
model) is reconstructed as `.ok none` — the Python function falls off its
`if`/`elif` chain and returns `None` — instead of failing with a fatal
reconstruction error. -/
theorem claim_C3_counterexample :
    _load_one_results unknownTagExt trivialParse trivialMvn = .ok none := by
  decide

/-- Claim C3 (amended): for every extension whose stored analysis-type tag is
neither "MLE" nor "Bayesian" (and whose model keyword, model parse and
statistic scan succeed), per-block reconstruction returns no result at all
(Python `None`) rather than raising a reconstruction error: the degraded
empty outcome the original claim rules out. -/
theorem claim_C3 (ext : FITSExt) (parse : List Char → Except String Model)
    (mvn : List ℚ → Mat → Nat → Mat) (yaml : List Char) (m : Model) (stats : Stats)
    (hMOD : getH ext.header (.kw "MODEL") = some (.hchars yaml))
    (hparse : parse (_escape_back_yaml_from_fits yaml) = .ok m)
    (hstats : gatherStats ext.header ext.header [] = .ok stats)
    (htag1 : getH ext.header (.kw "RESUTYPE") ≠ some (.hstr "MLE"))
    (htag2 : getH ext.header (.kw "RESUTYPE") ≠ some (.hstr "Bayesian")) :
    _load_one_results ext parse mvn = .ok none := by
  unfold _load_one_results
  rw [hMOD]
  show (Except.ok yaml >>= _) = _
  simp only [except_bind_ok, hparse, hstats, if_neg htag1, if_neg htag2]

/-- Witness for C3 at a concrete extension with tag "Unknown". -/
theorem claim_C3_witness :
    _load_one_results
      ⟨"ANALYSIS_RESULTS", [(.kw "MODEL", .hchars ("m".data)),
        (.kw "RESUTYPE", .hstr "Unknown")], []⟩
      (fun _ => .ok ⟨[]⟩) trivialMvn = .ok none :=
  claim_C3 _ _ _ ("m".data) ⟨[]⟩ [] (by decide) rfl (by decide) (by decide) (by decide)

/-- Claim C5: a covariance matrix whose shape differs from (k,k), or a sample
matrix whose column count differs from k, makes construction fail with a
shape error naming the expected and actual counts; the dimensions are never
coerced. -/
theorem claim_C5 :
    (∀ (m : Model) (cov : Mat) (stats : Stats) (n : Nat)
      (mvn : List ℚ → Mat → Nat → Mat) (r c : Nat),
      Rect cov r c →
      (r ≠ m.free_parameters.length ∨ (1 ≤ r ∧ c ≠ m.free_parameters.length)) →
      MLEResults.init m (.mat cov) stats n mvn =
        .error ("Covariance matrix has wrong shape. Got (" ++ toString cov.length
          ++ ", " ++ toString (cols0 cov) ++ "), should be ("
          ++ toString (Model.values m).length
          ++ ", " ++ toString (Model.values m).length ++ ")")) ∧
    (∀ (m : Model) (S : Mat) (stats : Stats) (n c : Nat),
      Rect S n c → 1 ≤ n → c ≠ m.free_parameters.length →
      BayesianResults.init m S stats =
        .error ("Number of free parameters (" ++ toString (cols0 S)
          ++ ") and set of samples (" ++ toString m.free_parameters.length
          ++ ") do not agree.")) := by
  constructor
  · intro m cov stats n mvn r c hrect hbad
    have hvl : (Model.values m).length = m.free_parameters.length := values_length m
    simp only [MLEResults.init]
    rw [if_neg]
    intro hc
    obtain ⟨h1, h2⟩ := hc
    rcases hbad with hr | ⟨hr1, hcne⟩
    · exact hr (by rw [← hrect.1, h1, hvl])
    · obtain ⟨row, hrow⟩ := List.exists_mem_of_length_pos
        (show 0 < cov.length by rw [hrect.1]; omega)
      have hrl : row.length = c := hrect.2 row hrow
      have := List.all_eq_true.mp h2 row hrow
      simp only [decide_eq_true_eq] at this
      exact hcne (by rw [← hrl, this, hvl])
  · intro m S stats n c hrect hn hcne
    unfold BayesianResults.init _AnalysisResults.init
    rw [if_neg]
    intro hc
    obtain ⟨row, hrow⟩ := List.exists_mem_of_length_pos
      (show 0 < S.length by rw [hrect.1]; omega)
    have := List.all_eq_true.mp hc row hrow
    simp only [decide_eq_true_eq] at this
    exact hcne (by rw [← hrect.2 row hrow, this])

/-- Witness for C5: a model with one free parameter, a 2 x 2 covariance
matrix, and a 3 x 2 sample matrix. -/
theorem claim_C5_witness :
    (MLEResults.init ⟨[⟨"p", 0, none, none, ""⟩]⟩ (.mat [[1, 0], [0, 1]]) [] 5 trivialMvn =
      .error ("Covariance matrix has wrong shape. Got (" ++ toString (2 : Nat)
        ++ ", " ++ toString (2 : Nat) ++ "), should be (" ++ toString (1 : Nat)
        ++ ", " ++ toString (1 : Nat) ++ ")")) ∧
    (BayesianResults.init ⟨[⟨"p", 0, none, none, ""⟩]⟩ [[1, 2], [3, 4], [5, 6]] [] =
      .error ("Number of free parameters (" ++ toString (2 : Nat)
        ++ ") and set of samples (" ++ toString (1 : Nat) ++ ") do not agree.")) :=
  ⟨claim_C5.1 ⟨[⟨"p", 0, none, none, ""⟩]⟩ [[1, 0], [0, 1]] [] 5 trivialMvn 2 2
      (by decide) (by decide),
   claim_C5.2 ⟨[⟨"p", 0, none, none, ""⟩]⟩ [[1, 2], [3, 4], [5, 6]] [] 3 2
      (by decide) (by decide) (by decide)⟩

/-- Claim C6: during MLE construction from a covariance matrix, exactly the
multivariate-normal samples with a coordinate outside the declared bounds are
removed (a missing bound never rejects), the record keeps the reduced set,
and a warning carrying the loss data is emitted iff strictly more than 1
percent of the drawn samples were removed. -/
theorem claim_C6 (m : Model) (cov : Mat) (stats : Stats) (n : Nat)
    (mvn : List ℚ → Mat → Nat → Mat) (S : Mat)
    (hS : mvn (Model.values m) cov n = S)
    (hlen : cov.length = m.free_parameters.length)
    (hcols : ∀ row ∈ cov, row.length = m.free_parameters.length)
    (hrows : ∀ row ∈ S, row.length = m.free_parameters.length) :
    ∃ ar w, MLEResults.init m (.mat cov) stats n mvn = .ok (ar, w) ∧
      ar.samples_transposed = transposeM (keptSamples m S) ∧
      (∀ s ∈ S,
        outOfBounds (m.free_parameters.map (fun p => p.min_value))
          (m.free_parameters.map (fun p => p.max_value)) s = true →
        s ∉ keptSamples m S) ∧
      (∀ s ∈ S,
        outOfBounds (m.free_parameters.map (fun p => p.min_value))
          (m.free_parameters.map (fun p => p.max_value)) s = false →
        s ∈ keptSamples m S) ∧
      (w.isSome ↔ 100 * (S.length - (keptSamples m S).length) > S.length) ∧
      (∀ nr tot, w = some (nr, tot) →
        nr = S.length - (keptSamples m S).length ∧ tot = S.length) := by
  have hvl : (Model.values m).length = m.free_parameters.length := values_length m
  subst hS
  simp only [MLEResults.init]
  rw [if_pos ⟨by rw [hvl]; exact hlen, by rw [hvl]; exact all_rows_of cov _ hcols⟩]
  unfold MLEResults.finish
  have hbase : _AnalysisResults.init m (keptSamples m (mvn (Model.values m) cov n))
      stats ("MLE") = .ok
      { n_free_parameters := m.free_parameters.length
        optimized_model := m
        samples_transposed := transposeM (keptSamples m (mvn (Model.values m) cov n))
        optimal_statistic_values := stats
        analysis_type := "MLE"
        covariance_matrix := none } := by
    unfold _AnalysisResults.init
    rw [if_pos ?hkept]
    case hkept =>
      apply all_rows_of
      intro row hrow
      exact hrows row (List.mem_of_mem_filter hrow)
    rfl
  rw [hbase]
  refine ⟨_, _, rfl, rfl, ?_, ?_, ?_, ?_⟩
  · intro s hs hout hmem
    have := List.of_mem_filter hmem
    simp only [hout, Bool.not_true] at this
    exact Bool.false_ne_true this
  · intro s hs hout
    apply List.mem_filter.mpr
    exact ⟨hs, by simp [hout]⟩
  · unfold removedCount
    constructor
    · intro hsome
      by_contra hc
      rw [if_neg hc] at hsome
      simp at hsome
    · intro hgt
      rw [if_pos hgt]
      simp
  · intro nr tot heq
    unfold removedCount at heq
    split at heq
    · injection heq with h'
      exact ⟨congrArg Prod.fst h' |>.symm, congrArg Prod.snd h' |>.symm⟩
    · simp at heq

/-- Witness for C6: two of four samples violate the single parameter's bounds
and are removed; 50 percent loss triggers the warning. -/
theorem claim_C6_witness :
    ∃ ar w, MLEResults.init ⟨[⟨"p", 0, some (-1), some 1, ""⟩]⟩ (.mat [[1]]) [] 4
        (fun _ _ _ => [[0], [5], [-7], [1]]) = .ok (ar, w) ∧
      ar.samples_transposed =
        transposeM (keptSamples ⟨[⟨"p", 0, some (-1), some 1, ""⟩]⟩ [[0], [5], [-7], [1]]) ∧
      (∀ s ∈ ([[0], [5], [-7], [1]] : Mat),
        outOfBounds [some (-1)] [some 1] s = true →
        s ∉ keptSamples ⟨[⟨"p", 0, some (-1), some 1, ""⟩]⟩ [[0], [5], [-7], [1]]) ∧
      (∀ s ∈ ([[0], [5], [-7], [1]] : Mat),
        outOfBounds [some (-1)] [some 1] s = false →
        s ∈ keptSamples ⟨[⟨"p", 0, some (-1), some 1, ""⟩]⟩ [[0], [5], [-7], [1]]) ∧
      (w.isSome ↔ 100 * (4 - (keptSamples ⟨[⟨"p", 0, some (-1), some 1, ""⟩]⟩
        [[0], [5], [-7], [1]]).length) > 4) ∧
      (∀ nr tot, w = some (nr, tot) →
        nr = 4 - (keptSamples ⟨[⟨"p", 0, some (-1), some 1, ""⟩]⟩
          [[0], [5], [-7], [1]]).length ∧ tot = 4) :=
  claim_C6 ⟨[⟨"p", 0, some (-1), some 1, ""⟩]⟩ [[1]] [] 4
    (fun _ _ _ => [[0], [5], [-7], [1]]) [[0], [5], [-7], [1]]
    rfl (by decide) (by decide) (by decide)

/-- Claim C7: constructing an MLEResults without covariance information (a
0-d covariance input) stores `n_samples` exact duplicates of the best-fit
vector as the sample matrix and an all-zero (k,k) covariance matrix; no
warning is emitted (the best-fit point satisfies the parameter bounds). -/
theorem claim_C7 (m : Model) (stats : Stats) (n : Nat)
    (mvn : List ℚ → Mat → Nat → Mat)
    (hin : ∀ p ∈ m.free_parameters,
      (∀ b, p.min_value = some b → b ≤ p.value) ∧
      (∀ b, p.max_value = some b → p.value ≤ b)) :
    MLEResults.init m .scalar0d stats n mvn = .ok
      ({ n_free_parameters := m.free_parameters.length
         optimized_model := m
         samples_transposed := transposeM (List.replicate n (Model.values m))
         optimal_statistic_values := stats
         analysis_type := "MLE"
         covariance_matrix := some (List.replicate m.free_parameters.length
           (List.replicate m.free_parameters.length (0 : ℚ))) }, none) := by
  have hvl : (Model.values m).length = m.free_parameters.length := values_length m
  simp only [MLEResults.init]
  unfold MLEResults.finish
  have hkeep : keptSamples m (List.replicate n (Model.values m)) =
      List.replicate n (Model.values m) := by
    unfold keptSamples
    apply List.filter_eq_self.mpr
    intro a ha
    have : a = Model.values m := (List.eq_of_mem_replicate ha)
    subst this
    rw [outOfBounds_values_false m hin]
    rfl
  have hbase : _AnalysisResults.init m
      (keptSamples m (List.replicate n (Model.values m))) stats ("MLE") = .ok
      { n_free_parameters := m.free_parameters.length
        optimized_model := m
        samples_transposed := transposeM (List.replicate n (Model.values m))
        optimal_statistic_values := stats
        analysis_type := "MLE"
        covariance_matrix := none } := by
    rw [hkeep]
    unfold _AnalysisResults.init
    rw [if_pos ?hrows]
    case hrows =>
      apply all_rows_of
      intro row hrow
      rw [List.eq_of_mem_replicate hrow]
      exact hvl
    rfl
  rw [hbase]
  unfold removedCount
  rw [hkeep]
  rw [if_neg (by simp)]
  rw [hvl]

/-- Witness for C7 at a one-parameter model with bounds around its value. -/
theorem claim_C7_witness :
    MLEResults.init ⟨[⟨"p", 2, some 0, some 5, "keV"⟩]⟩ .scalar0d [("d", 1)] 3 trivialMvn =
      .ok ({ n_free_parameters := 1
             optimized_model := ⟨[⟨"p", 2, some 0, some 5, "keV"⟩]⟩
             samples_transposed :=
               transposeM (List.replicate 3 (Model.values ⟨[⟨"p", 2, some 0, some 5, "keV"⟩]⟩))
             optimal_statistic_values := [("d", 1)]
             analysis_type := "MLE"
             covariance_matrix := some (List.replicate 1 (List.replicate 1 (0 : ℚ))) }, none) :=
  claim_C7 ⟨[⟨"p", 2, some 0, some 5, "keV"⟩]⟩ [("d", 1)] 3 trivialMvn (by decide)

theorem getD_range_map {β : Type} (n i : Nat) (f : Nat → β) (d : β) (h : i < n) :
    ((List.range n).map f).getD i d = f i := by
  rw [getD_map_lt _ _ _ (by simpa using h)]
  simp

/-- Claim C8: the correlation matrix is an n x n table whose (i,j) cell is
`cov[i,j] / sqrt(cov[i,i]*cov[j,j])` when the denominator product is strictly
positive and not-a-number (modelled as `none`) otherwise — the computation is
total, never an exception; in particular a zero variance at index i poisons
all of row i and column i. -/
theorem claim_C8 (sqrtF : ℚ → ℚ) (n : Nat) (cov : Mat) (i j : Nat)
    (hi : i < n) (hj : j < n) :
    (_get_correlation_matrix sqrtF n cov).length = n ∧
    (∀ row ∈ _get_correlation_matrix sqrtF n cov, row.length = n) ∧
    (((_get_correlation_matrix sqrtF n cov).getD i []).getD j (some 0) =
      if (cov.getD i []).getD i 0 * (cov.getD j []).getD j 0 > 0 then
        some ((cov.getD i []).getD j 0 /
          sqrtF ((cov.getD i []).getD i 0 * (cov.getD j []).getD j 0))
      else none) ∧
    ((cov.getD i []).getD i 0 = 0 →
      ((_get_correlation_matrix sqrtF n cov).getD i []).getD j (some 0) = none ∧
      ((_get_correlation_matrix sqrtF n cov).getD j []).getD i (some 0) = none) := by
  have hmain : ∀ a b : Nat, a < n → b < n →
      ((_get_correlation_matrix sqrtF n cov).getD a []).getD b (some 0) =
      if (cov.getD a []).getD a 0 * (cov.getD b []).getD b 0 > 0 then
        some ((cov.getD a []).getD b 0 /
          sqrtF ((cov.getD a []).getD a 0 * (cov.getD b []).getD b 0))
      else none := by
    intro a b ha hb
    unfold _get_correlation_matrix
    rw [getD_range_map n a _ [] ha, getD_range_map n b _ (some 0) hb]
  refine ⟨?_, ?_, hmain i j hi hj, ?_⟩
  · unfold _get_correlation_matrix
    simp
  · intro row hrow
    unfold _get_correlation_matrix at hrow
    obtain ⟨a, _, rfl⟩ := List.mem_map.mp hrow
    simp
  · intro h0
    constructor
    · rw [hmain i j hi hj, h0, zero_mul, if_neg (lt_irrefl 0)]
    · rw [hmain j i hj hi, h0, mul_zero, if_neg (lt_irrefl 0)]

/-- Witness for C8 on a 2 x 2 covariance matrix with a zero diagonal cell. -/
theorem claim_C8_witness :
    ((_get_correlation_matrix id 2 [[0, 3], [3, 4]]).length = 2 ∧
      (∀ row ∈ _get_correlation_matrix id 2 [[0, 3], [3, 4]], row.length = 2) ∧
      ((((_get_correlation_matrix id 2 [[0, 3], [3, 4]]).getD 0 []).getD 1 (some 0)) =
        if (([[0, 3], [3, 4]] : Mat).getD 0 []).getD 0 0 *
            (([[0, 3], [3, 4]] : Mat).getD 1 []).getD 1 0 > 0 then
          some ((([[0, 3], [3, 4]] : Mat).getD 0 []).getD 1 0 /
            id ((([[0, 3], [3, 4]] : Mat).getD 0 []).getD 0 0 *
              (([[0, 3], [3, 4]] : Mat).getD 1 []).getD 1 0))
        else none) ∧
      ((([[0, 3], [3, 4]] : Mat).getD 0 []).getD 0 0 = 0 →
        (((_get_correlation_matrix id 2 [[0, 3], [3, 4]]).getD 0 []).getD 1 (some 0)) = none ∧
        (((_get_correlation_matrix id 2 [[0, 3], [3, 4]]).getD 1 []).getD 0 (some 0)) = none)) :=
  claim_C8 id 2 [[0, 3], [3, 4]] 0 1 (by decide) (by decide)

/-- Claim C9: the summary table accepts exactly the error kinds "equal tail"
(equal-tail quantile intervals) and "hpd" (accepted but falling back to the
same equal-tail computation); any other kind raises ValueError, and a
confidence level outside (0,1) raises ValueError as well (on any model with
at least one free parameter). -/
theorem claim_C9 :
    (∀ (ar : AnalysisResults) (cl : ℚ),
      get_data_frame ar ("hpd") cl = get_data_frame ar ("equal tail") cl) ∧
    (∀ (ar : AnalysisResults) (et : String) (cl : ℚ),
      et ≠ "equal tail" → et ≠ "hpd" →
      get_data_frame ar et cl =
        .error ("error_type must be either equal tail or hpd. Got " ++ et)) ∧
    (∀ (ar : AnalysisResults) (cl : ℚ),
      (cl ≤ 0 ∨ 1 ≤ cl) → ar.optimized_model.free_parameters ≠ [] →
      get_data_frame ar ("equal tail") cl =
        .error ("ValueError: confidence level must be in the open interval 0..1")) := by
  refine ⟨?_, ?_, ?_⟩
  · intro ar cl
    unfold get_data_frame
    rw [if_neg (by decide), if_pos rfl, if_pos rfl]
  · intro ar et cl h1 h2
    unfold get_data_frame
    rw [if_neg h1, if_neg h2]
    rfl
  · intro ar cl hcl hne
    have hcl' : ¬ (0 < cl ∧ cl < 1) := by
      rcases hcl with h | h
      · exact fun hc => absurd hc.1 (not_lt.mpr h)
      · exact fun hc => absurd hc.2 (not_lt.mpr h)
    unfold get_data_frame
    rw [if_pos rfl, except_bind_ok]
    dsimp only
    obtain ⟨p, rest, hps⟩ : ∃ p rest, ar.optimized_model.free_parameters = p :: rest := by
      cases hps : ar.optimized_model.free_parameters with
      | nil => exact absurd hps hne
      | cons p rest => exact ⟨p, rest, rfl⟩
    obtain ⟨rv, hrv⟩ := get_variates_ok ar p (by rw [hps]; exact List.mem_cons_self p rest)
    rw [hps, List.mapM_cons]
    simp only [hrv, except_bind_ok, equal_tail_confidence_interval, if_neg hcl',
      except_bind_error]

/-- A one-parameter record used to witness the summary-table claims. -/
def arSummaryW : AnalysisResults :=
  ⟨1, ⟨[⟨"p", 0, none, none, ""⟩]⟩, [[0]], [], "MLE", none⟩

/-- Witness for C9 at concrete error kinds and confidence levels. -/
theorem claim_C9_witness :
    (get_data_frame arSummaryW ("hpd") (1/2) =
      get_data_frame arSummaryW ("equal tail") (1/2)) ∧
    (get_data_frame arSummaryW ("median") (1/2) =
      .error ("error_type must be either equal tail or hpd. Got " ++ "median")) ∧
    (get_data_frame arSummaryW ("equal tail") 2 =
      .error ("ValueError: confidence level must be in the open interval 0..1")) :=
  ⟨claim_C9.1 arSummaryW (1/2),
   claim_C9.2.1 arSummaryW ("median") (1/2) (by decide) (by decide),
   claim_C9.2.2 arSummaryW 2 (Or.inr (by decide)) (by decide)⟩

/-- Claim C10: `load_analysis_results` dispatches only on the test "exactly
one ANALYSIS_RESULTS extension".  A container with zero result extensions
takes the multi-result path: it builds a zero-length set and then
unconditionally looks up the SEQUENCE extension, so it either fails with the
missing-SEQUENCE KeyError or returns the empty set — never a dedicated
no-results error. -/
theorem load_set_zero (f : FITSFileM) (parse : List Char → Except String Model)
    (mvn : List ℚ → Mat → Nat → Mat) :
    _load_set_of_results f 0 parse mvn =
      (lookupExtName f ("SEQUENCE") >>= fun sequence_ext =>
        characterize_sequence ⟨[], none, none⟩
          (getH sequence_ext.header (.kw "SEQ_TYPE")) sequence_ext.data) := by
  unfold _load_set_of_results
  rfl

theorem claim_C10 (f : FITSFileM) (parse : List Char → Except String Model)
    (mvn : List ℚ → Mat → Nat → Mat)
    (h0 : (f.extensions.map (fun e => e.extname)).count ("ANALYSIS_RESULTS") = 0) :
    ((∀ e ∈ f.extensions, e.extname ≠ "SEQUENCE") →
      load_analysis_results f parse mvn =
        .error ("KeyError: extension SEQUENCE not found")) ∧
    (∀ seqExt, lookupExtName f ("SEQUENCE") = .ok seqExt →
      (seqExt.data.all (fun c => colLen c.2.2 = 0)) = true →
      load_analysis_results f parse mvn = .ok (.resultSet
        { results := []
          sequence_name := getH seqExt.header (.kw "SEQ_TYPE")
          sequence_tuple := some seqExt.data })) := by
  constructor
  · intro hnoseq
    have hlk : lookupExtName f ("SEQUENCE") =
        .error ("KeyError: extension SEQUENCE not found") := by
      unfold lookupExtName
      have hfind : f.extensions.find? (fun e => e.extname == "SEQUENCE") = none := by
        apply List.find?_eq_none.mpr
        intro e he
        simpa using hnoseq e he
      rw [hfind]
      rfl
    unfold load_analysis_results
    rw [if_neg (by rw [h0]; omega), h0, load_set_zero, hlk]
    rfl
  · intro seqExt hlk hcols
    unfold load_analysis_results
    rw [if_neg (by rw [h0]; omega), h0, load_set_zero, hlk]
    show ((Except.ok seqExt >>= _) >>= _) = _
    rw [except_bind_ok]
    unfold characterize_sequence
    rw [if_pos ?hall]
    case hall =>
      rw [List.all_eq_true] at hcols ⊢
      intro c hc
      have := hcols c hc
      simpa using this
    rfl

/-- Witness for C10: an empty container fails through the SEQUENCE lookup; a
container holding only a SEQUENCE extension yields the empty set. -/
theorem claim_C10_witness :
    (load_analysis_results ⟨[], []⟩ trivialParse trivialMvn =
      .error ("KeyError: extension SEQUENCE not found")) ∧
    (load_analysis_results ⟨[], [⟨"SEQUENCE", [(.kw "SEQ_TYPE", .hstr "time")], []⟩]⟩
        trivialParse trivialMvn = .ok (.resultSet
        { results := []
          sequence_name := getH [(.kw "SEQ_TYPE", .hstr "time")] (.kw "SEQ_TYPE")
          sequence_tuple := some [] })) :=
  ⟨(claim_C10 ⟨[], []⟩ trivialParse trivialMvn (by decide)).1 (by decide),
   (claim_C10 ⟨[], [⟨"SEQUENCE", [(.kw "SEQ_TYPE", .hstr "time")], []⟩]⟩
      trivialParse trivialMvn (by decide)).2
      ⟨"SEQUENCE", [(.kw "SEQ_TYPE", .hstr "time")], []⟩ (by decide) (by decide)⟩

/-! ### C4: column schema inference -/

theorem hasSub_middle (pat a c : List Char) : hasSub pat (a ++ (pat ++ c)) = true := by
  induction a with
  | nil =>
    apply hasSub_of_isPrefixOf
    exact (isPrefixOf_iff pat (pat ++ c)).mpr ⟨c, rfl⟩
  | cons x xs ih =>
    simp [hasSub, ih]

/-- C4 (amended): the on-disk encoding of a column is decided from its first
element in the claimed order, with one exception to the claim: when the first
element is array-like and its own first element probes as the generic object
dtype, the bare `assert` fails with an `AssertionError` that does not name the
offending column. -/
theorem claim_C4 (coerceOk : Cell → NpDtype → Bool) (column_name : String) :
    (∀ v d unit rest code, _NUMPY_TO_FITS_CODE d = some code →
      buildColumn coerceOk column_name (Cell.quantity v d unit :: rest) =
        .ok { name := column_name, format := code, unit := some unit }) ∧
    (∀ s rest lens, (Cell.str s :: rest).mapM Cell.lenOf = some lens →
      buildColumn coerceOk column_name (Cell.str s :: rest) =
        .ok { name := column_name, format := toString (lens.foldl max 0) ++ "A",
              unit := none }) ∧
    (∀ v d rest code, _NUMPY_TO_FITS_CODE d = some code →
      buildColumn coerceOk column_name (Cell.num v d :: rest) =
        .ok { name := column_name, format := code, unit := none }) ∧
    (∀ e0 es rest code, Cell.dtypeOf e0 ≠ .objT →
      (e0 :: es).all (fun e => coerceOk e (Cell.dtypeOf e0)) = true →
      _NUMPY_TO_FITS_CODE (Cell.dtypeOf e0) = some code →
      buildColumn coerceOk column_name (Cell.arr (e0 :: es) :: rest) =
        .ok { name := column_name, format := toString (e0 :: es).length ++ code,
              unit := none }) ∧
    (∀ e0 es rest, Cell.dtypeOf e0 ≠ .objT →
      (e0 :: es).all (fun e => coerceOk e (Cell.dtypeOf e0)) = false →
      ∃ msg, buildColumn coerceOk column_name (Cell.arr (e0 :: es) :: rest) =
        .error msg ∧ hasSub column_name.data msg.data = true) ∧
    (∀ e0 es rest, Cell.dtypeOf e0 = .objT →
      buildColumn coerceOk column_name (Cell.arr (e0 :: es) :: rest) =
        .error ("AssertionError")) ∧
    (∀ rest, ∃ msg, buildColumn coerceOk column_name (Cell.obj :: rest) =
      .error msg ∧ hasSub column_name.data msg.data = true) := by
  refine ⟨?_, ?_, ?_, ?_, ?_, ?_, ?_⟩
  · intro v d unit rest code hcode
    simp only [buildColumn, List.head?_cons, hcode]
  · intro s rest lens hlens
    simp only [buildColumn, List.head?_cons, maxLenOf, hlens, except_bind_ok]
  · intro v d rest code hcode
    simp only [buildColumn, List.head?_cons, hcode]
  · intro e0 es rest code hne hall hcode
    simp only [buildColumn, List.head?_cons, if_neg hne, if_pos hall, hcode]
  · intro e0 es rest hne hall
    refine ⟨"Column " ++ column_name ++ " contain data which cannot be coerced to "
      ++ (Cell.dtypeOf e0).pyName, ?_, ?_⟩
    · simp only [buildColumn, List.head?_cons, if_neg hne, hall,
        Bool.false_eq_true, if_false]
    · have hdata : ("Column " ++ column_name ++
          " contain data which cannot be coerced to " ++ (Cell.dtypeOf e0).pyName).data =
          "Column ".data ++ (column_name.data ++
            (" contain data which cannot be coerced to "
              ++ (Cell.dtypeOf e0).pyName).data) := by
        simp [String.data_append, List.append_assoc]
      rw [hdata]
      exact hasSub_middle column_name.data _ _
  · intro e0 es rest hobj
    simp only [buildColumn, List.head?_cons, if_pos hobj]
  · intro rest
    refine ⟨"Column " ++ column_name ++
      " in dataframe contains objects which are not strings", rfl, ?_⟩
    have hdata : ("Column " ++ column_name ++
        " in dataframe contains objects which are not strings").data =
        "Column ".data ++ (column_name.data ++
          (" in dataframe contains objects which are not strings").data) := by
      simp [String.data_append, List.append_assoc]
    rw [hdata]
    exact hasSub_middle column_name.data _ _

/-- Counterexample for C4: a column whose first element is an array of opaque
objects fails through the bare `assert`, and the resulting `AssertionError`
does not contain the offending column's name, contrary to the claim that every
such failure names the column. -/
theorem claim_C4_counterexample :
    buildColumn (fun _ _ => true) ("free_parameters") [Cell.arr [Cell.obj]] =
      .error ("AssertionError") ∧
    hasSub ("free_parameters".data) ("AssertionError".data) = false := by
  exact ⟨rfl, by decide⟩

/-- Witness for C4: a quantity column keeps its unit, a string column is sized
to its longest entry, and a numeric array column gets a counted numeric
format. -/
theorem claim_C4_witness :
    buildColumn (fun _ _ => true) ("value") [Cell.quantity 1 .f64 "keV"] =
      .ok { name := "value", format := "D", unit := some "keV" } ∧
    buildColumn (fun _ _ => true) ("name") [Cell.str "src", Cell.str "source_1"] =
      .ok { name := "name", format := "8A", unit := none } ∧
    buildColumn (fun _ _ => true) ("COVARIANCE")
        [Cell.arr [Cell.num 0 .f64, Cell.num 1 .f64]] =
      .ok { name := "COVARIANCE", format := "2D", unit := none } := by
  refine ⟨?_, ?_, ?_⟩
  · exact (claim_C4 (fun _ _ => true) ("value")).1 1 .f64 "keV" [] "D" rfl
  · exact ((claim_C4 (fun _ _ => true) ("name")).2.1 "src" [Cell.str "source_1"]
      [3, 8] (by decide)).trans (by decide)
  · exact ((claim_C4 (fun _ _ => true) ("COVARIANCE")).2.2.2.1 (Cell.num 0 .f64)
      [Cell.num 1 .f64] [] "D" (by decide) (by decide) rfl).trans (by decide)

/-! ### C1: the write/load round trip -/

/-- The keyword part of the written header: `_HEADER_KEYWORDS` after the
CREATOR, MODEL and RESUTYPE updates, spelled out. -/
def arHeadA (atype : String) (yaml : List Char) : Header :=
  [(.kw "EXTNAME", .hstr "ANALYSIS_RESULTS"),
   (.kw "MODEL", .hchars yaml),
   (.kw "ORIGIN", .hstr "3ML"),
   (.kw "RESUTYPE", .hstr atype),
   (.kw "CREATOR", .hstr "3ML")]

theorem setH_fresh (h : Header) (k : HKey) (v : HVal) (hf : ∀ p ∈ h, p.1 ≠ k) :
    setH h k v = h ++ [(k, v)] := by
  unfold setH
  rw [if_neg]
  intro hany
  obtain ⟨p, hp, hpk⟩ := List.any_eq_true.mp hany
  exact hf p hp (by simpa using hpk)

theorem getH_append_left (h₁ h₂ : Header) (k : HKey) (v : HVal)
    (h : getH h₁ k = some v) : getH (h₁ ++ h₂) k = some v := by
  induction h₁ with
  | nil => simp [getH] at h
  | cons q t ih =>
    by_cases hq : q.1 = k
    · rw [List.cons_append, getH_cons_of_eq q _ k hq]
      rw [getH_cons_of_eq q t k hq] at h
      exact h
    · rw [List.cons_append, getH_cons_of_ne q _ k hq]
      rw [getH_cons_of_ne q t k hq] at h
      exact ih h

theorem statEntries_not_kw (stats : Stats) (i : Nat) (s : String) :
    ∀ p ∈ statEntries stats i, p.1 ≠ HKey.kw s := by
  intro p hp
  rcases mem_statEntries stats i p hp with ⟨j, hj⟩ | ⟨j, hj⟩ <;> (rw [hj]; simp)

theorem arHeadA_not_stat (atype : String) (yaml : List Char) :
    ∀ p ∈ arHeadA atype yaml, ∀ j, p.1 ≠ HKey.STAT j ∧ p.1 ≠ HKey.PN j := by
  intro p hp j
  simp only [arHeadA, List.mem_cons, List.not_mem_nil, or_false] at hp
  rcases hp with rfl | rfl | rfl | rfl | rfl <;> exact ⟨by simp, by simp⟩

theorem arHeadA_not_extver (atype : String) (yaml : List Char) :
    ∀ p ∈ arHeadA atype yaml, p.1 ≠ HKey.kw "EXTVER" := by
  intro p hp
  simp only [arHeadA, List.mem_cons, List.not_mem_nil, or_false] at hp
  rcases hp with rfl | rfl | rfl | rfl | rfl <;> simp

theorem arHeaderFull_eq (ar : AnalysisResults) (yaml : List Char) :
    arHeaderFull ar yaml =
      arHeadA ar.analysis_type yaml ++ statEntries ar.optimal_statistic_values 0 := by
  unfold arHeaderFull
  have hA : setH (setH (setH arHeader0 (.kw "CREATOR") (.hstr "3ML"))
      (.kw "MODEL") (.hchars yaml)) (.kw "RESUTYPE") (.hstr ar.analysis_type) =
      arHeadA ar.analysis_type yaml := rfl
  rw [hA]
  exact addStats_eq_append _ _ 0 (fun p hp j _ => arHeadA_not_stat _ _ p hp j)

theorem writeHeader_eq (ar : AnalysisResults) (yaml : List Char) :
    setH (arHeaderFull ar yaml) (.kw "EXTVER") (.hnum 1) =
      arHeadA ar.analysis_type yaml ++ statEntries ar.optimal_statistic_values 0
        ++ [(.kw "EXTVER", .hnum 1)] := by
  rw [arHeaderFull_eq]
  apply setH_fresh
  intro p hp
  rcases List.mem_append.mp hp with hA | hE
  · exact arHeadA_not_extver _ _ p hA
  · exact statEntries_not_kw _ 0 "EXTVER" p hE

theorem getH_writeHeader_MODEL (atype : String) (yaml : List Char) (stats : Stats) :
    getH (arHeadA atype yaml ++ statEntries stats 0 ++ [(.kw "EXTVER", .hnum 1)])
      (.kw "MODEL") = some (.hchars yaml) := by
  apply getH_append_left
  apply getH_append_left
  rfl

theorem getH_writeHeader_RESUTYPE (atype : String) (yaml : List Char) (stats : Stats) :
    getH (arHeadA atype yaml ++ statEntries stats 0 ++ [(.kw "EXTVER", .hnum 1)])
      (.kw "RESUTYPE") = some (.hstr atype) := by
  apply getH_append_left
  apply getH_append_left
  rfl

theorem getH_writeHeader_EXTVER (atype : String) (yaml : List Char) (stats : Stats) :
    getH (arHeadA atype yaml ++ statEntries stats 0 ++ [(.kw "EXTVER", .hnum 1)])
      (.kw "EXTVER") = some (.hnum 1) := by
  rw [getH_append_of_none]
  · rfl
  · intro p hp
    rcases List.mem_append.mp hp with hA | hE
    · exact arHeadA_not_extver _ _ p hA
    · exact statEntries_not_kw _ 0 "EXTVER" p hE

theorem gatherStats_writeHeader (atype : String) (yaml : List Char) (stats : Stats)
    (hnodup : (stats.map Prod.fst).Nodup) :
    gatherStats (arHeadA atype yaml ++ statEntries stats 0 ++ [(.kw "EXTVER", .hnum 1)])
      (arHeadA atype yaml ++ statEntries stats 0 ++ [(.kw "EXTVER", .hnum 1)]) [] =
      .ok stats := by
  have hPN : ∀ (j : Nat) (hj : j < stats.length),
      getH (arHeadA atype yaml ++ statEntries stats 0 ++ [(.kw "EXTVER", .hnum 1)])
        (.PN (0 + j)) = some (.hstr (stats.get ⟨j, hj⟩).1) := by
    intro j hj
    rw [List.append_assoc, getH_append_of_none]
    · exact getH_append_left _ _ _ _ (getH_statEntries_PN stats 0 j hj)
    · intro p hp
      exact (arHeadA_not_stat atype yaml p hp (0 + j)).2
  rw [List.append_assoc]
  have hskip := gatherStats_skip
    (arHeadA atype yaml ++ (statEntries stats 0 ++ [(HKey.kw "EXTVER", HVal.hnum 1)]))
    (statEntries stats 0 ++ [(HKey.kw "EXTVER", HVal.hnum 1)])
    (arHeadA atype yaml) []
    (fun p hp i => (arHeadA_not_stat atype yaml p hp i).1)
  rw [hskip]
  have hent := gatherStats_entries
    (arHeadA atype yaml ++ (statEntries stats 0 ++ [(HKey.kw "EXTVER", HVal.hnum 1)]))
    stats 0 [(HKey.kw "EXTVER", HVal.hnum 1)] []
    (fun j hj => by rw [← List.append_assoc]; exact hPN j hj)
    (by intro nm _; rfl) hnodup
  rw [hent]
  rfl

theorem MLE_init_record (m : Model) (cov : Mat) (stats : Stats) (n : Nat)
    (mvn : List ℚ → Mat → Nat → Mat) (ar : AnalysisResults) (w : Option (Nat × Nat))
    (h : MLEResults.init m (.mat cov) stats n mvn = .ok (ar, w)) :
    ar = { n_free_parameters := m.free_parameters.length
           optimized_model := m
           samples_transposed :=
             transposeM (keptSamples m (mvn (Model.values m) cov n))
           optimal_statistic_values := stats
           analysis_type := "MLE"
           covariance_matrix := some cov } ∧
    cov.length = m.free_parameters.length ∧
    (∀ row ∈ cov, row.length = m.free_parameters.length) := by
  have hvl : (Model.values m).length = m.free_parameters.length := values_length m
  simp only [MLEResults.init] at h
  split at h
  · rename_i hc
    unfold MLEResults.finish at h
    split at h
    · rename_i base hbase
      injection h with h'
      have hb := _AnalysisResults_init_fields _ _ _ _ _ hbase
      subst hb
      have h1 := congrArg Prod.fst h'
      simp only at h1
      refine ⟨h1.symm, by rw [← hvl]; exact hc.1, ?_⟩
      intro row hrow
      rw [← hvl]
      have := List.all_eq_true.mp hc.2 row hrow
      simpa using this
    · exact absurd h (by simp)
  · exact absurd h (by simp)

theorem Bayes_init_record (m : Model) (S : Mat) (stats : Stats) (ar : AnalysisResults)
    (h : BayesianResults.init m S stats = .ok ar) :
    ar = { n_free_parameters := m.free_parameters.length
           optimized_model := m
           samples_transposed := transposeM S
           optimal_statistic_values := stats
           analysis_type := "Bayesian"
           covariance_matrix := none } ∧
    ∀ row ∈ S, row.length = m.free_parameters.length := by
  unfold BayesianResults.init _AnalysisResults.init at h
  split at h
  · rename_i hc
    injection h with h'
    refine ⟨h'.symm, ?_⟩
    intro row hrow
    have := List.all_eq_true.mp hc row hrow
    simpa using this
  · exact absurd h (by simp)

theorem fieldMat_arData_cov (en : String) (Hd : Header) (ar : AnalysisResults)
    (df : List (String × DFRow)) (C : Mat) (sc : ColData) :
    fieldMat ⟨en, Hd, arDataList ar df (.mat C) sc⟩ ("COVARIANCE") = .ok C := rfl

theorem fieldMat_arData_samp (en : String) (Hd : Header) (ar : AnalysisResults)
    (df : List (String × DFRow)) (cc : ColData) (S : Mat) :
    fieldMat ⟨en, Hd, arDataList ar df cc (.mat S)⟩ ("SAMPLES") = .ok S := rfl

theorem covSampCols_MLE (ar : AnalysisResults) (C : Mat)
    (hT : ar.analysis_type = "MLE") (hC : ar.covariance_matrix = some C)
    (hlen : C.length = ar.optimized_model.free_parameters.length)
    (hcols : ∀ row ∈ C, row.length = ar.optimized_model.free_parameters.length) :
    covSampCols ar = .ok (.mat C,
      .nums (List.replicate ar.optimized_model.free_parameters.length (0 : ℚ))) := by
  unfold covSampCols
  rw [if_pos hT, hC]
  dsimp only
  rw [if_pos ⟨hlen, all_rows_of C _ hcols⟩]

theorem covSampCols_Bayes (ar : AnalysisResults)
    (hT : ar.analysis_type = "Bayesian") :
    covSampCols ar =
      .ok (.nums (List.replicate ar.optimized_model.free_parameters.length (0 : ℚ)),
        .mat ar.samples_transposed) := by
  unfold covSampCols
  rw [if_neg]
  rw [hT]
  intro hc
  exact absurd hc (by decide)

theorem build_eq (ar : AnalysisResults) (yaml_dump : Model → List Char)
    (cc sc : ColData) (df : List (String × DFRow))
    (hcs : covSampCols ar = .ok (cc, sc))
    (hdf : get_data_frame ar ("equal tail") (17 / 25) = .ok df) :
    ANALYSIS_RESULTS.build ar yaml_dump = .ok
      ⟨"ANALYSIS_RESULTS",
        arHeaderFull ar (_escape_yaml_for_fits (yaml_dump ar.optimized_model)),
        arDataList ar df cc sc⟩ := by
  unfold ANALYSIS_RESULTS.build
  rw [hcs]
  dsimp only
  rw [hdf]

theorem write_to_eq (ar : AnalysisResults) (yaml_dump : Model → List Char)
    (ext : FITSExt) (hb : ANALYSIS_RESULTS.build ar yaml_dump = .ok ext) :
    write_to ar yaml_dump = .ok
      ⟨[(.kw "ORIGIN", .hstr "3ML")],
        [⟨ext.extname, setH ext.header (.kw "EXTVER") (.hnum 1), ext.data⟩]⟩ := by
  unfold write_to
  rw [hb]

theorem load_file_one (prim : Header) (extF : FITSExt)
    (parse : List Char → Except String Model) (mvn : List ℚ → Mat → Nat → Mat)
    (r : Option AnalysisResults)
    (hname : extF.extname = "ANALYSIS_RESULTS")
    (hver : getH extF.header (.kw "EXTVER") = some (.hnum 1))
    (hone : _load_one_results extF parse mvn = .ok r) :
    load_analysis_results ⟨prim, [extF]⟩ parse mvn = .ok (.single r) := by
  unfold load_analysis_results
  rw [if_pos ?hcount]
  case hcount =>
    show ((([extF] : List FITSExt).map (fun e => e.extname)).count ("ANALYSIS_RESULTS")) = 1
    rw [show ([extF] : List FITSExt).map (fun e => e.extname) = ["ANALYSIS_RESULTS"] by
      simp [hname]]
    rfl
  have hlk : lookupExtVer ⟨prim, [extF]⟩ ("ANALYSIS_RESULTS") 1 = .ok extF := by
    unfold lookupExtVer
    dsimp only
    have hfind : (([extF] : List FITSExt).find? (fun e =>
        e.extname == "ANALYSIS_RESULTS"
          && (getH e.header (.kw "EXTVER") == some (.hnum ((1 : Nat) : ℚ))))) =
        some extF := by
      apply List.find?_cons_of_pos
      simp [hname, hver]
    rw [hfind]
  rw [hlk]
  show ((Except.ok extF >>= _) : Except String LoadedResult) = _
  rw [except_bind_ok]
  rw [hone]
  rfl

theorem load_one_MLE (en : String) (Hd : Header)
    (D : List (String × Option String × ColData))
    (parse : List Char → Except String Model) (mvn : List ℚ → Mat → Nat → Mat)
    (yaml : List Char) (m : Model) (stats : Stats) (C : Mat)
    (ar₂ : AnalysisResults) (w₂ : Option (Nat × Nat))
    (hMOD : getH Hd (.kw "MODEL") = some (.hchars yaml))
    (hparse : parse (_escape_back_yaml_from_fits yaml) = .ok m)
    (hst : gatherStats Hd Hd [] = .ok stats)
    (hRES : getH Hd (.kw "RESUTYPE") = some (.hstr "MLE"))
    (hfm : fieldMat ⟨en, Hd, D⟩ ("COVARIANCE") = .ok C)
    (hinit : MLEResults.init m (.mat (transposeM C)) stats 5000 mvn = .ok (ar₂, w₂)) :
    _load_one_results ⟨en, Hd, D⟩ parse mvn = .ok (some ar₂) := by
  unfold _load_one_results
  dsimp only
  rw [hMOD]
  show ((Except.ok yaml >>= _) : Except String (Option AnalysisResults)) = _
  simp only [except_bind_ok, hparse, hst, if_pos hRES]
  show ((fieldMat ⟨en, Hd, D⟩ ("COVARIANCE") >>= _) :
    Except String (Option AnalysisResults)) = _
  rw [hfm]
  simp only [except_bind_ok, hinit]

theorem load_one_Bayes (en : String) (Hd : Header)
    (D : List (String × Option String × ColData))
    (parse : List Char → Except String Model) (mvn : List ℚ → Mat → Nat → Mat)
    (yaml : List Char) (m : Model) (stats : Stats) (S : Mat) (ar₂ : AnalysisResults)
    (hMOD : getH Hd (.kw "MODEL") = some (.hchars yaml))
    (hparse : parse (_escape_back_yaml_from_fits yaml) = .ok m)
    (hst : gatherStats Hd Hd [] = .ok stats)
    (hRES : getH Hd (.kw "RESUTYPE") = some (.hstr "Bayesian"))
    (hfm : fieldMat ⟨en, Hd, D⟩ ("SAMPLES") = .ok S)
    (hinit : BayesianResults.init m (transposeM S) stats = .ok ar₂) :
    _load_one_results ⟨en, Hd, D⟩ parse mvn = .ok (some ar₂) := by
  unfold _load_one_results
  dsimp only
  rw [hMOD]
  show ((Except.ok yaml >>= _) : Except String (Option AnalysisResults)) = _
  simp only [except_bind_ok, hparse, hst]
  rw [if_neg (by rw [hRES]; intro hc; exact absurd hc (by decide)), if_pos hRES]
  show ((fieldMat ⟨en, Hd, D⟩ ("SAMPLES") >>= _) :
    Except String (Option AnalysisResults)) = _
  rw [hfm]
  simp only [except_bind_ok, hinit]

/-- Claim C1: for every valid result record — an `MLEResults` built from a
model, a covariance matrix of the right shape and a statistic mapping, or a
`BayesianResults` built from a model and a sample matrix — writing it with
`write_to` and reading it back with `load_analysis_results` yields a record of
the same variant with the same best-fit values, the same covariance matrix
(MLE), the sample matrix preserved exactly (Bayesian), and the same statistic
mapping.  The covariance matrix is assumed symmetric (it is one by
construction) and the external astromodels serializer is assumed to round-trip
on the model and to produce token-core-free text; the reader redraws its
samples through the external sampler `mvn`, whose rows match the parameter
count. -/
theorem claim_C1 (parse : List Char → Except String Model)
    (yaml_dump : Model → List Char) (mvn : List ℚ → Mat → Nat → Mat) :
    (∀ (m : Model) (cov : Mat) (stats : Stats) (n : Nat) (ar : AnalysisResults)
        (w : Option (Nat × Nat)),
      MLEResults.init m (.mat cov) stats n mvn = .ok (ar, w) →
      transposeM cov = cov →
      (stats.map Prod.fst).Nodup →
      coreFree (yaml_dump m) = true →
      parse (yaml_dump m) = .ok m →
      (∀ row ∈ mvn (Model.values m) cov 5000, row.length = m.free_parameters.length) →
      ∃ f ar₂, write_to ar yaml_dump = .ok f ∧
        load_analysis_results f parse mvn = .ok (.single (some ar₂)) ∧
        ar₂.analysis_type = ar.analysis_type ∧
        Model.values ar₂.optimized_model = Model.values ar.optimized_model ∧
        ar₂.covariance_matrix = ar.covariance_matrix ∧
        ar₂.optimal_statistic_values = ar.optimal_statistic_values) ∧
    (∀ (m : Model) (S : Mat) (stats : Stats) (r : Nat) (ar : AnalysisResults),
      BayesianResults.init m S stats = .ok ar →
      Rect S r m.free_parameters.length → 1 ≤ r → 1 ≤ m.free_parameters.length →
      (stats.map Prod.fst).Nodup →
      coreFree (yaml_dump m) = true →
      parse (yaml_dump m) = .ok m →
      ∃ f ar₂, write_to ar yaml_dump = .ok f ∧
        load_analysis_results f parse mvn = .ok (.single (some ar₂)) ∧
        ar₂.analysis_type = ar.analysis_type ∧
        Model.values ar₂.optimized_model = Model.values ar.optimized_model ∧
        ar₂.samples_transposed = ar.samples_transposed ∧
        ar₂.optimal_statistic_values = ar.optimal_statistic_values) := by
  constructor
  · intro m cov stats n ar w h hsym hnodup hcore hparse hmvn
    obtain ⟨har, hlen, hcols⟩ := MLE_init_record m cov stats n mvn ar w h
    subst har
    obtain ⟨ar₂, w₂, hinit2, hom₂, hat₂, hcm₂, hosv₂, hnfp₂⟩ :=
      MLE_init_mat_is_ok m cov stats 5000 mvn hlen hcols hmvn
    have hinitT : MLEResults.init m (.mat (transposeM cov)) stats 5000 mvn =
        .ok (ar₂, w₂) := by
      rw [hsym]
      exact hinit2
    obtain ⟨df, hdf⟩ := get_data_frame_ok
      { n_free_parameters := m.free_parameters.length
        optimized_model := m
        samples_transposed := transposeM (keptSamples m (mvn (Model.values m) cov n))
        optimal_statistic_values := stats
        analysis_type := "MLE"
        covariance_matrix := some cov } ((17 : ℚ) / 25) (by norm_num) (by norm_num)
    have hcs := covSampCols_MLE
      { n_free_parameters := m.free_parameters.length
        optimized_model := m
        samples_transposed := transposeM (keptSamples m (mvn (Model.values m) cov n))
        optimal_statistic_values := stats
        analysis_type := "MLE"
        covariance_matrix := some cov } cov rfl rfl hlen hcols
    have hbuild := build_eq _ yaml_dump _ _ df hcs hdf
    have hw := write_to_eq _ yaml_dump _ hbuild
    refine ⟨⟨[(.kw "ORIGIN", .hstr "3ML")],
      [⟨"ANALYSIS_RESULTS",
        arHeadA "MLE" (_escape_yaml_for_fits (yaml_dump m)) ++ statEntries stats 0
          ++ [(.kw "EXTVER", .hnum 1)],
        arDataList
          { n_free_parameters := m.free_parameters.length
            optimized_model := m
            samples_transposed :=
              transposeM (keptSamples m (mvn (Model.values m) cov n))
            optimal_statistic_values := stats
            analysis_type := "MLE"
            covariance_matrix := some cov } df (.mat cov)
          (.nums (List.replicate m.free_parameters.length (0 : ℚ)))⟩]⟩,
      ar₂, ?_, ?_, ?_, ?_, ?_, ?_⟩
    · rw [hw]
      dsimp only
      rw [writeHeader_eq]
    · exact load_file_one _ _ parse mvn (some ar₂) rfl
        (getH_writeHeader_EXTVER "MLE" (_escape_yaml_for_fits (yaml_dump m)) stats)
        (load_one_MLE _ _ _ parse mvn (_escape_yaml_for_fits (yaml_dump m)) m stats cov
          ar₂ w₂
          (getH_writeHeader_MODEL "MLE" (_escape_yaml_for_fits (yaml_dump m)) stats)
          (by rw [unescape_escape_of_coreFree _ hcore]; exact hparse)
          (gatherStats_writeHeader "MLE" (_escape_yaml_for_fits (yaml_dump m)) stats
            hnodup)
          (getH_writeHeader_RESUTYPE "MLE" (_escape_yaml_for_fits (yaml_dump m)) stats)
          (fieldMat_arData_cov _ _ _ df cov _)
          hinitT)
    · exact hat₂
    · rw [hom₂]
    · exact hcm₂
    · exact hosv₂
  · intro m S stats r ar hb hrect hr hp1 hnodup hcore hparse
    obtain ⟨har, hrows⟩ := Bayes_init_record m S stats ar hb
    subst har
    have hTT : transposeM (transposeM S) = S :=
      transposeM_transposeM S r m.free_parameters.length hrect hr hp1
    have hinitR : BayesianResults.init m (transposeM (transposeM S)) stats = .ok
        { n_free_parameters := m.free_parameters.length
          optimized_model := m
          samples_transposed := transposeM S
          optimal_statistic_values := stats
          analysis_type := "Bayesian"
          covariance_matrix := none } := by
      rw [hTT]
      exact Bayes_init_is_ok m S stats hrows
    obtain ⟨df, hdf⟩ := get_data_frame_ok
      { n_free_parameters := m.free_parameters.length
        optimized_model := m
        samples_transposed := transposeM S
        optimal_statistic_values := stats
        analysis_type := "Bayesian"
        covariance_matrix := none } ((17 : ℚ) / 25) (by norm_num) (by norm_num)
    have hcs := covSampCols_Bayes
      { n_free_parameters := m.free_parameters.length
        optimized_model := m
        samples_transposed := transposeM S
        optimal_statistic_values := stats
        analysis_type := "Bayesian"
        covariance_matrix := none } rfl
    have hbuild := build_eq _ yaml_dump _ _ df hcs hdf
    have hw := write_to_eq _ yaml_dump _ hbuild
    refine ⟨⟨[(.kw "ORIGIN", .hstr "3ML")],
      [⟨"ANALYSIS_RESULTS",
        arHeadA "Bayesian" (_escape_yaml_for_fits (yaml_dump m)) ++ statEntries stats 0
          ++ [(.kw "EXTVER", .hnum 1)],
        arDataList
          { n_free_parameters := m.free_parameters.length
            optimized_model := m
            samples_transposed := transposeM S
            optimal_statistic_values := stats
            analysis_type := "Bayesian"
            covariance_matrix := none } df
          (.nums (List.replicate m.free_parameters.length (0 : ℚ)))
          (.mat (transposeM S))⟩]⟩,
      { n_free_parameters := m.free_parameters.length
        optimized_model := m
        samples_transposed := transposeM S
        optimal_statistic_values := stats
        analysis_type := "Bayesian"
        covariance_matrix := none }, ?_, ?_, ?_, ?_, ?_, ?_⟩
    · rw [hw]
      dsimp only
      rw [writeHeader_eq]
    · exact load_file_one _ _ parse mvn _ rfl
        (getH_writeHeader_EXTVER "Bayesian" (_escape_yaml_for_fits (yaml_dump m)) stats)
        (load_one_Bayes _ _ _ parse mvn (_escape_yaml_for_fits (yaml_dump m)) m stats
          (transposeM S) _
          (getH_writeHeader_MODEL "Bayesian" (_escape_yaml_for_fits (yaml_dump m)) stats)
          (by rw [unescape_escape_of_coreFree _ hcore]; exact hparse)
          (gatherStats_writeHeader "Bayesian" (_escape_yaml_for_fits (yaml_dump m))
            stats hnodup)
          (getH_writeHeader_RESUTYPE "Bayesian" (_escape_yaml_for_fits (yaml_dump m))
            stats)
          (fieldMat_arData_samp _ _ _ df _ (transposeM S))
          hinitR)
    · rfl
    · rfl
    · rfl
    · rfl

/-- A one-parameter model for the round-trip witness. -/
def mW : Model := ⟨[⟨"src.K", 1, none, none, "1/keV"⟩]⟩

/-- Witness serializer: a fixed core-free model text. -/
def yamlDump0 : Model → List Char := fun _ => "model".data

/-- Witness parser: inverts `yamlDump0` on its fixed output. -/
def parse0 : List Char → Except String Model :=
  fun s => if s = "model".data then .ok mW else .error ("bad model")

/-- Witness sampler: a single in-bounds sample row. -/
def mvn0 : List ℚ → Mat → Nat → Mat := fun _ _ _ => [[1]]

/-- The MLE record `MLEResults.init` builds from `mW` in the witness. -/
def arMW : AnalysisResults := ⟨1, mW, [[1]], [("dataset1", 2)], "MLE", some [[1]]⟩

/-- The Bayesian record `BayesianResults.init` builds from `mW` in the witness. -/
def arBW : AnalysisResults := ⟨1, mW, [[3]], [("dataset1", 2)], "Bayesian", none⟩

/-- Witness for C1: a concrete one-parameter MLE record and Bayesian record
each survive the write/load round trip. -/
theorem claim_C1_witness :
    (∃ f ar₂, write_to arMW yamlDump0 = .ok f ∧
      load_analysis_results f parse0 mvn0 = .ok (.single (some ar₂)) ∧
      ar₂.analysis_type = arMW.analysis_type ∧
      Model.values ar₂.optimized_model = Model.values arMW.optimized_model ∧
      ar₂.covariance_matrix = arMW.covariance_matrix ∧
      ar₂.optimal_statistic_values = arMW.optimal_statistic_values) ∧
    (∃ f ar₂, write_to arBW yamlDump0 = .ok f ∧
      load_analysis_results f parse0 mvn0 = .ok (.single (some ar₂)) ∧
      ar₂.analysis_type = arBW.analysis_type ∧
      Model.values ar₂.optimized_model = Model.values arBW.optimized_model ∧
      ar₂.samples_transposed = arBW.samples_transposed ∧
      ar₂.optimal_statistic_values = arBW.optimal_statistic_values) :=
  ⟨(claim_C1 parse0 yamlDump0 mvn0).1 mW [[1]] [("dataset1", 2)] 4 arMW none
      (by decide) (by decide) (by decide) (by decide) (by decide) (by decide),
   (claim_C1 parse0 yamlDump0 mvn0).2 mW [[3]] [("dataset1", 2)] 1 arBW
      (by decide) (by decide) (by decide) (by decide) (by decide) (by decide)
      (by decide)⟩
